import Mathlib

/-!
Verification of the section-loop scheduler (scripts/section-loop.py and the
refactored scripts/section_loop/ package) against its specification.

The Python code is shallowly embedded: pure decision logic is translated to
executable Lean functions; external effects (agent dispatches, the event-log
CLI, message polls, the filesystem) are passed in explicitly as data or as
oracle functions, so that every branch of the embedded control flow mirrors a
branch of the source.  Machine hashing (hashlib.sha256) is embedded as a
bytewise SHA-256 over `List Nat` (each entry a byte), faithful to FIPS 180-4,
with 32-bit words represented as `Nat` reduced mod 2^32.
-/

namespace SectionLoop

/-! ## Python string primitives

Helpers mirroring the Python string operations the scheduler uses.  They
are written over the character lists of strings with structural
recursion, so that the kernel can evaluate them (several core `String`
operations are compiled by well-founded recursion and do not reduce). -/

/-- Python `str.strip()` whitespace: space, tab, newline, carriage
return, vertical tab, form feed (the ASCII whitespace; all inputs in
scope are ASCII). -/
def isPyWs (c : Char) : Bool :=
  c = ' ' || c = '\t' || c = '\n' || c = '\r'
    || c = Char.ofNat 11 || c = Char.ofNat 12

/-- Python `s.strip()`. -/
def pyStrip (s : String) : String :=
  String.mk (((s.data.dropWhile isPyWs).reverse.dropWhile isPyWs).reverse)

/-- Python `s.startswith(pre)`. -/
def pyStartsWith (s pre : String) : Bool := pre.data.isPrefixOf s.data

/-- Python `s.endswith(suf)`. -/
def pyEndsWith (s suf : String) : Bool := suf.data.isSuffixOf s.data

/-- Python `s[:n]`. -/
def pyTake (s : String) (n : Nat) : String := String.mk (s.data.take n)

/-- Python `sep.join(parts)`. -/
def pyIntercalate (sep : String) : List String → String
  | [] => ""
  | [x] => x
  | x :: xs => x ++ sep ++ pyIntercalate sep xs

/-- Worker for `pySplit`: split at each leftmost occurrence of the
non-empty separator. -/
def pySplitCh (sep : List Char) : Nat → List Char → List Char →
    List (List Char)
  | _, acc, [] => [acc.reverse]
  | 0, acc, rest => [acc.reverse ++ rest]
  | fuel + 1, acc, c :: rest =>
    if sep.isPrefixOf (c :: rest) then
      acc.reverse :: pySplitCh sep fuel [] ((c :: rest).drop sep.length)
    else
      pySplitCh sep fuel (c :: acc) rest

/-- Python `s.split(sep)` for a non-empty separator. -/
def pySplit (s sep : String) : List String :=
  if sep.data.isEmpty then [s]
  else (pySplitCh sep.data s.data.length [] s.data).map String.mk

/-- Python `sub in s` for a non-empty literal `sub`: true when `sub`
occurs as a substring of `s`. -/
def containsSub (s sub : String) : Bool :=
  (pySplit s sub).length != 1

/-- Python `s[s.find(sub) + len(sub):]` when `find` succeeded: everything
after the first occurrence of `sub`. -/
def afterFirst (s sub : String) : String :=
  pyIntercalate sub ((pySplit s sub).drop 1)

/-- Lexicographic comparison of character lists by code point. -/
def strLeCh : List Char → List Char → Bool
  | [], _ => true
  | _ :: _, [] => false
  | a :: as, b :: bs =>
    if a.toNat < b.toNat then true
    else if b.toNat < a.toNat then false
    else strLeCh as bs

/-- Python string `<=` (code-point lexicographic). -/
def strLe (a b : String) : Bool := strLeCh a.data b.data

/-- Insert into a sorted list (worker of the stable insertion sort that
models Python `sorted`). -/
def insertSorted {α : Type} (le : α → α → Bool) (x : α) :
    List α → List α
  | [] => [x]
  | y :: ys => if le x y then x :: y :: ys else y :: insertSorted le x ys

/-- Stable insertion sort, modelling Python `sorted(…)` (any correct
sort; the callers sort lists whose keys are distinct). -/
def pySorted {α : Type} (le : α → α → Bool) (l : List α) : List α :=
  l.foldr (insertSorted le) []

/-- A single-star glob pattern `pre*suf` over a file name (no separators in
names): matches iff the name is `pre ++ x ++ suf` for some (possibly empty)
`x`. -/
def globMatch1 (pre suf name : String) : Bool :=
  pyStartsWith name pre && pyEndsWith name suf
    && decide (pre.length + suf.length ≤ name.length)

/-- Value of a string of decimal digits, as Python `int` reads `\d+`. -/
def digitsVal (s : String) : Nat :=
  s.data.foldl (fun acc c => acc * 10 + (c.toNat - 48)) 0

/-- Bytes of an ASCII string, modelling Python `str.encode()` (UTF-8); on
the ASCII strings used throughout, UTF-8 is the identity on code points. -/
def strBytes (s : String) : List Nat := s.data.map Char.toNat

/-! ## SHA-256 (embedding of hashlib.sha256)

Bytewise SHA-256 per FIPS 180-4.  Words are `Nat` values kept below 2^32 by
explicit reduction; messages and digests are `List Nat` of bytes. -/

/-- Reduce to a 32-bit word. -/
def m32 (x : Nat) : Nat := x % 4294967296

/-- Right rotation of a 32-bit word. -/
def rotr32 (x n : Nat) : Nat := m32 ((x >>> n) ||| (x <<< (32 - n)))

/-- SHA-256 Ch. -/
def shaCh (x y z : Nat) : Nat := (x &&& y) ^^^ ((x ^^^ 4294967295) &&& z)

/-- SHA-256 Maj. -/
def shaMaj (x y z : Nat) : Nat := (x &&& y) ^^^ (x &&& z) ^^^ (y &&& z)

/-- SHA-256 big sigma 0. -/
def bsig0 (x : Nat) : Nat := rotr32 x 2 ^^^ rotr32 x 13 ^^^ rotr32 x 22

/-- SHA-256 big sigma 1. -/
def bsig1 (x : Nat) : Nat := rotr32 x 6 ^^^ rotr32 x 11 ^^^ rotr32 x 25

/-- SHA-256 small sigma 0. -/
def ssig0 (x : Nat) : Nat := rotr32 x 7 ^^^ rotr32 x 18 ^^^ (x >>> 3)

/-- SHA-256 small sigma 1. -/
def ssig1 (x : Nat) : Nat := rotr32 x 17 ^^^ rotr32 x 19 ^^^ (x >>> 10)

/-- The 64 SHA-256 round constants. -/
def kConsts : List Nat :=
  [1116352408, 1899447441, 3049323471, 3921009573,
   961987163, 1508970993, 2453635748, 2870763221,
   3624381080, 310598401, 607225278, 1426881987,
   1925078388, 2162078206, 2614888103, 3248222580,
   3835390401, 4022224774, 264347078, 604807628,
   770255983, 1249150122, 1555081692, 1996064986,
   2554220882, 2821834349, 2952996808, 3210313671,
   3336571891, 3584528711, 113926993, 338241895,
   666307205, 773529912, 1294757372, 1396182291,
   1695183700, 1986661051, 2177026350, 2456956037,
   2730485921, 2820302411, 3259730800, 3345764771,
   3516065817, 3600352804, 4094571909, 275423344,
   430227734, 506948616, 659060556, 883997877,
   958139571, 1322822218, 1537002063, 1747873779,
   1955562222, 2024104815, 2227730452, 2361852424,
   2428436474, 2756734187, 3204031479, 3329325298]

/-- Eight-word SHA-256 state. -/
structure Sha8 where
  a : Nat
  b : Nat
  c : Nat
  d : Nat
  e : Nat
  f : Nat
  g : Nat
  h : Nat
deriving DecidableEq, Repr

/-- SHA-256 initial hash state. -/
def initSha : Sha8 :=
  ⟨1779033703, 3144134277, 1013904242, 2773480762,
   1359893119, 2600822924, 528734635, 1541459225⟩

/-- Big-endian byte rendering of `n` on `w` bytes. -/
def beBytes (w n : Nat) : List Nat :=
  match w with
  | 0 => []
  | v + 1 => (n >>> (8 * v)) % 256 :: beBytes v n

/-- FIPS 180-4 §5.1.1 padding: append 0x80, zero bytes to 56 mod 64, then
the 64-bit big-endian bit length. -/
def padBytes (msg : List Nat) : List Nat :=
  let len := msg.length
  let zeros := (119 - (len % 64)) % 64
  msg ++ (128 :: List.replicate zeros 0) ++ beBytes 8 (len * 8)

/-- Combine consecutive 4-byte groups into big-endian 32-bit words. -/
def bytesToWords : List Nat → List Nat
  | b0 :: b1 :: b2 :: b3 :: rest =>
      ((b0 <<< 24) ||| (b1 <<< 16) ||| (b2 <<< 8) ||| b3) :: bytesToWords rest
  | _ => []

/-- Word `i` of a schedule list (0 when out of range). -/
def wAt (w : List Nat) (i : Nat) : Nat := w.getD i 0

/-- Extend the 16-word schedule by `n` further words. -/
def extendW : Nat → List Nat → List Nat
  | 0, w => w
  | n + 1, w =>
      let t := w.length
      let x := m32 (ssig1 (wAt w (t - 2)) + wAt w (t - 7)
                    + ssig0 (wAt w (t - 15)) + wAt w (t - 16))
      extendW n (w ++ [x])

/-- One SHA-256 round, consuming a (round constant, schedule word) pair. -/
def shaRound (s : Sha8) (kw : Nat × Nat) : Sha8 :=
  let t1 := m32 (s.h + bsig1 s.e + shaCh s.e s.f s.g + kw.1 + kw.2)
  let t2 := m32 (bsig0 s.a + shaMaj s.a s.b s.c)
  ⟨m32 (t1 + t2), s.a, s.b, s.c, m32 (s.d + t1), s.e, s.f, s.g⟩

/-- Compress one 64-byte block into the state. -/
def shaCompress (st : Sha8) (block : List Nat) : Sha8 :=
  let w := extendW 48 (bytesToWords block)
  let r := (kConsts.zip w).foldl shaRound st
  ⟨m32 (st.a + r.a), m32 (st.b + r.b), m32 (st.c + r.c), m32 (st.d + r.d),
   m32 (st.e + r.e), m32 (st.f + r.f), m32 (st.g + r.g), m32 (st.h + r.h)⟩

/-- Split into 64-byte chunks; the fuel argument bounds recursion by the
list length. -/
def chunk64 : Nat → List Nat → List (List Nat)
  | 0, _ => []
  | _, [] => []
  | fuel + 1, l => l.take 64 :: chunk64 fuel (l.drop 64)

/-- The 32 digest bytes of a state, big-endian per word. -/
def shaStateBytes (s : Sha8) : List Nat :=
  beBytes 4 s.a ++ beBytes 4 s.b ++ beBytes 4 s.c ++ beBytes 4 s.d ++
  beBytes 4 s.e ++ beBytes 4 s.f ++ beBytes 4 s.g ++ beBytes 4 s.h

/-- SHA-256 digest bytes of a byte message. -/
def sha256bytes (msg : List Nat) : List Nat :=
  let padded := padBytes msg
  shaStateBytes ((chunk64 padded.length padded).foldl shaCompress initSha)

/-- Lowercase hex character for a value below 16. -/
def hexDigitChar (n : Nat) : Char :=
  if n < 10 then Char.ofNat (48 + n) else Char.ofNat (87 + n)

/-- Two lowercase hex characters of a byte. -/
def byteHexChars (b : Nat) : List Char :=
  [hexDigitChar ((b / 16) % 16), hexDigitChar (b % 16)]

/-- Python `hashlib.sha256(msg).hexdigest()`: 64 lowercase hex characters. -/
def sha256hex (msg : List Nat) : String :=
  String.mk ((sha256bytes msg).flatMap byteHexChars)

/-! ## Pipeline state (section-loop.py `check_pipeline_state`, `wait_if_paused`)

The event-log query subprocess is modelled by its captured stdout; the
recv loop of `wait_if_paused` is driven by oracle functions giving the nth
re-check result and the nth received message, with a fuel bound (the real
loop blocks until an external state change). -/

/-- Embedding of `check_pipeline_state`: parse the latest pipeline-state
lifecycle row from the query stdout; any empty or unparseable output
reports `running`. -/
def check_pipeline_state (queryStdout : String) : String :=
  let line := pyStrip queryStdout
  if line ≠ "" then
    let parts := pySplit line "|"
    if parts.length ≥ 5 ∧ (parts.getD 4 "") ≠ "" then parts.getD 4 ""
    else "running"
  else "running"

/-- Result of the `wait_if_paused` embedding. -/
inductive WaitOutcome
  | returned
  | aborted
  | outOfFuel
deriving DecidableEq, Repr

/-- Oracles driving the `wait_if_paused` loop: `checks n` is the stdout of
the nth re-evaluation of the loop condition, `recvs n` the nth
`mailbox_recv` result. -/
structure WaitTrace where
  checks : Nat → String
  recvs : Nat → String

/-- Name under which the scheduler registers its own mailbox. -/
def AGENT_NAME : String := "section-loop"

/-- The recv loop of `wait_if_paused` (the `while check_pipeline_state ==
"paused"` loop).  Returns the mailbox sends `(box, body)` performed, in
order, and the outcome.  The excerpt invalidation and flag-file writes of
the `alignment_changed` branch are filesystem effects with no influence on
sends or return, and are not tracked. -/
def wait_loop (parent : String) (tr : WaitTrace)
    (buffered : List String) (n : Nat) : Nat → List (String × String) × WaitOutcome
  | 0 => ([], .outOfFuel)
  | fuel + 1 =>
    if check_pipeline_state (tr.checks n) = "paused" then
      let msg := tr.recvs n
      if msg = "TIMEOUT" then wait_loop parent tr buffered (n + 1) fuel
      else if pyStartsWith msg "abort" then
        ([(parent, "fail:aborted")], .aborted)
      else if pyStartsWith msg "alignment_changed" then
        wait_loop parent tr buffered (n + 1) fuel
      else wait_loop parent tr (buffered ++ [msg]) (n + 1) fuel
    else
      ((buffered.map (fun m => (AGENT_NAME, m))) ++ [(parent, "status:resumed")],
       .returned)

/-- Embedding of `wait_if_paused`: the initial state check uses the first
query stdout; a non-`paused` state returns immediately with no sends. -/
def wait_if_paused (parent : String) (firstStdout : String) (tr : WaitTrace)
    (fuel : Nat) : List (String × String) × WaitOutcome :=
  if check_pipeline_state firstStdout ≠ "paused" then ([], .returned)
  else
    let tail := wait_loop parent tr [] 0 fuel
    ((parent, "status:paused") :: tail.1, tail.2)

/-! ## Alignment verdict extraction

Two implementations exist in the repository: the legacy text-only
`_extract_problems` in section-loop.py, and the refactored
`_extract_problems` in section_loop/alignment.py, which first honors a
structured JSON verdict parsed by `_parse_alignment_verdict` and only then
falls back to the same text rule. -/

/-- First non-empty (after strip) line of a judge output, or the empty
string. -/
def firstNonEmptyLine (result : String) : String :=
  match (pySplit result "\n").find? (fun l => pyStrip l ≠ "") with
  | some l => pyStrip l
  | none => ""

/-- Embedding of `_extract_problems` from section-loop.py: `none` for an
aligned output, otherwise `some` problems text. -/
def extract_problems_mono (result : String) : Option String :=
  if firstNonEmptyLine result = "ALIGNED"
      ∧ containsSub result "PROBLEMS:" = false
      ∧ containsSub result "UNDERSPECIFIED" = false then
    none
  else if containsSub result "PROBLEMS:" then
    some (pyStrip (afterFirst result "PROBLEMS:"))
  else
    some (pyStrip result)

/-! ### JSON values (model of Python json.loads output)

The verdict parser calls `json.loads`.  We embed JSON parsing for the
fragment the judge outputs use: null, booleans, integers, strings with the
common escapes, arrays and objects; floats and \u escapes are out of scope
and make the parse fail (no input in this development contains them). -/

/-- A decoded JSON value as Python represents it. -/
inductive PyJson
  | null
  | bool (b : Bool)
  | int (n : Int)
  | str (s : String)
  | arr (xs : List PyJson)
  | obj (kvs : List (String × PyJson))

/-- JSON whitespace. -/
def jsonWs (c : Char) : Bool :=
  c = ' ' || c = '\t' || c = '\n' || c = '\r'

/-- Drop leading JSON whitespace. -/
def skipWs (cs : List Char) : List Char := cs.dropWhile jsonWs

/-- Parse the body of a JSON string after the opening quote. -/
def parseJsonStr : Nat → List Char → Option (String × List Char)
  | 0, _ => none
  | _, [] => none
  | fuel + 1, c :: rest =>
    if c = '"' then some ("", rest)
    else if c = '\\' then
      match rest with
      | e :: rest2 =>
        let esc : Option Char :=
          if e = '"' then some '"'
          else if e = '\\' then some '\\'
          else if e = '/' then some '/'
          else if e = 'n' then some '\n'
          else if e = 't' then some '\t'
          else if e = 'r' then some '\r'
          else none
        match esc with
        | some ec =>
          match parseJsonStr fuel rest2 with
          | some (s, r) => some (String.mk (ec :: s.data), r)
          | none => none
        | none => none
      | [] => none
    else
      match parseJsonStr fuel rest with
      | some (s, r) => some (String.mk (c :: s.data), r)
      | none => none

/-- Parse a run of decimal digits. -/
def parseDigits (cs : List Char) : String × List Char :=
  let run := cs.takeWhile Char.isDigit
  (String.mk run, cs.drop run.length)

/-- Opening brace character. -/
def lbrace : Char := Char.ofNat 123

/-- Closing brace character. -/
def rbrace : Char := Char.ofNat 125

/-- Parsing mode: one value, the rest of an array, or the rest of an
object (`first` marks that no element has been read yet). -/
inductive JMode
  | val
  | arrRest (first : Bool)
  | objRest (first : Bool)

/-- Recursive-descent JSON parser (single fuel-bounded function so that
the kernel can evaluate it).  In `val` mode it parses one value; in the
`rest` modes it parses the remaining elements of an array or object whose
opener was consumed. -/
def parseJ : Nat → JMode → List Char → Option (PyJson × List Char)
  | 0, _, _ => none
  | fuel + 1, .val, cs =>
    (match skipWs cs with
    | [] => none
    | c :: rest =>
      if c = 'n' then
        match rest with
        | u :: l1 :: l2 :: r =>
          if u = 'u' && l1 = 'l' && l2 = 'l' then some (.null, r) else none
        | _ => none
      else if c = 't' then
        match rest with
        | r1 :: u :: e :: r =>
          if r1 = 'r' && u = 'u' && e = 'e' then some (.bool true, r) else none
        | _ => none
      else if c = 'f' then
        match rest with
        | a :: l :: s :: e :: r =>
          if a = 'a' && l = 'l' && s = 's' && e = 'e' then
            some (.bool false, r)
          else none
        | _ => none
      else if c = '"' then
        match parseJsonStr fuel rest with
        | some (s, r) => some (.str s, r)
        | none => none
      else if c = '-' || c.isDigit then
        let dr := if c = '-' then parseDigits rest else parseDigits (c :: rest)
        if dr.1 = "" then none
        else
          let v : Int := Int.ofNat (digitsVal dr.1)
          let num : PyJson := .int (if c = '-' then -v else v)
          match dr.2 with
          | d :: _ =>
            if d = '.' || d = 'e' || d = 'E' then none else some (num, dr.2)
          | [] => some (num, [])
      else if c = '[' then
        parseJ fuel (.arrRest true) (skipWs rest)
      else if c = lbrace then
        parseJ fuel (.objRest true) (skipWs rest)
      else none)
  | fuel + 1, .arrRest first, cs =>
    (match cs with
    | [] => none
    | c :: r =>
      if c = ']' then
        if first then some (.arr [], r) else none
      else
        match parseJ fuel .val cs with
        | some (v, r1) =>
          match skipWs r1 with
          | ',' :: r2 =>
            (match parseJ fuel (.arrRest false) (skipWs r2) with
            | some (.arr xs, r3) => some (.arr (v :: xs), r3)
            | _ => none)
          | ']' :: r2 => some (.arr [v], r2)
          | _ => none
        | none => none)
  | fuel + 1, .objRest first, cs =>
    (match cs with
    | [] => none
    | c :: r =>
      if c = rbrace then
        if first then some (.obj [], r) else none
      else if c = '"' then
        match parseJsonStr fuel r with
        | some (k, r2) =>
          match skipWs r2 with
          | ':' :: r3 =>
            (match parseJ fuel .val (skipWs r3) with
            | some (v, r4) =>
              match skipWs r4 with
              | ',' :: r5 =>
                (match parseJ fuel (.objRest false) (skipWs r5) with
                | some (.obj kvs, r6) => some (.obj ((k, v) :: kvs), r6)
                | _ => none)
              | c2 :: r5 =>
                if c2 = rbrace then some (.obj [(k, v)], r5) else none
              | [] => none
            | none => none)
          | _ => none
        | none => none
      else none)

/-- Embedding of `json.loads` on the supported fragment: the whole input
must be one JSON value surrounded by whitespace. -/
def json_loads (s : String) : Option PyJson :=
  match parseJ (s.length + 1) .val s.data with
  | some (v, rest) => if skipWs rest = [] then some v else none
  | none => none

/-- Python `d.get(k)` on a decoded JSON object (first binding wins;
`json.loads` keeps the last duplicate key, but no input here has
duplicates). -/
def objGet (kvs : List (String × PyJson)) (k : String) : Option PyJson :=
  (kvs.find? (fun kv => kv.1 = k)).map (·.2)

/-- Python truthiness of a decoded JSON value. -/
def pyTruthy : PyJson → Bool
  | .null => false
  | .bool b => b
  | .int n => n ≠ 0
  | .str s => s ≠ ""
  | .arr xs => !xs.isEmpty
  | .obj kvs => !kvs.isEmpty

/-- Python `repr()` of a decoded JSON scalar (strings quoted); container
rendering recurses with a depth fuel so the definition stays structurally
recursive (no input in this development nests deeper). -/
def pyReprF : Nat → PyJson → String
  | _, .null => "None"
  | _, .bool true => "True"
  | _, .bool false => "False"
  | _, .int n => toString n
  | _, .str s => "'" ++ s ++ "'"
  | 0, _ => ""
  | fuel + 1, .arr xs =>
      "[" ++ pyIntercalate ", " (xs.map (pyReprF fuel)) ++ "]"
  | fuel + 1, .obj kvs =>
      "\x7b" ++
        pyIntercalate ", "
          (kvs.map (fun kv => "'" ++ kv.1 ++ "': " ++ pyReprF fuel kv.2))
        ++ "\x7d"

/-- Python `str()` of a decoded JSON value: scalars render plainly,
containers as their repr. -/
def pyStr : PyJson → String
  | .null => "None"
  | .bool true => "True"
  | .bool false => "False"
  | .int n => toString n
  | .str s => s
  | .arr xs => pyReprF 1000 (.arr xs)
  | .obj kvs => pyReprF 1000 (.obj kvs)

/-- The `_try_parse` helper of `_parse_alignment_verdict`: a successful
`json.loads` giving a dict that contains the key `frame_ok`. -/
def tryParseVerdict (text : String) : Option (List (String × PyJson)) :=
  match json_loads text with
  | some (.obj kvs) =>
      if (objGet kvs "frame_ok").isSome then some kvs else none
  | _ => none

/-- Single-line scan of `_parse_alignment_verdict`: the first line that
strips to a `{`-prefixed string containing `frame_ok` and parses as a
verdict. -/
def verdictLineScan : List String → Option (List (String × PyJson))
  | [] => none
  | line :: rest =>
    let stripped := pyStrip line
    if pyStartsWith stripped "\x7b" && containsSub stripped "frame_ok" then
      match tryParseVerdict stripped with
      | some v => some v
      | none => verdictLineScan rest
    else verdictLineScan rest

/-- Code-fence scan of `_parse_alignment_verdict` (state: inside a fence,
accumulated fence lines). -/
def verdictFenceScan : List String → Bool → List String →
    Option (List (String × PyJson))
  | [], _, _ => none
  | line :: rest, inFence, acc =>
    let stripped := pyStrip line
    if pyStartsWith stripped "```" && !inFence then
      verdictFenceScan rest true []
    else if pyStartsWith stripped "```" && inFence then
      let candidate := pyIntercalate "\n" acc
      if containsSub candidate "frame_ok" then
        match tryParseVerdict candidate with
        | some v => some v
        | none => verdictFenceScan rest false acc
      else verdictFenceScan rest false acc
    else if inFence then verdictFenceScan rest inFence (acc ++ [line])
    else verdictFenceScan rest inFence acc

/-- Embedding of `_parse_alignment_verdict` from section_loop/alignment.py. -/
def parse_alignment_verdict (result : String) : Option (List (String × PyJson)) :=
  match verdictLineScan (pySplit result "\n") with
  | some v => some v
  | none => verdictFenceScan (pySplit result "\n") false []

/-- Embedding of `_extract_problems` from section_loop/alignment.py: a
structured JSON verdict takes precedence; otherwise the same text rule as
the legacy implementation. -/
def extract_problems_pkg (result : String) : Option String :=
  match parse_alignment_verdict result with
  | some verdict =>
    if pyTruthy ((objGet verdict "aligned").getD (.bool false)) then none
    else
      match objGet verdict "problems" with
      | some (.arr xs) => some (pyIntercalate "\n" (xs.map pyStr))
      | some (.str s) =>
          if pyStrip s ≠ "" then some (pyStrip s)
          else some "Alignment judge reported misaligned (no details in verdict)"
      | _ => some "Alignment judge reported misaligned (no details in verdict)"
  | none => extract_problems_mono result

/-! ## Content-hash change detection (section-loop.py `hash_file`,
`snapshot_files`, `diff_files` and the validation block of `run_section`)

The filesystem is an association list from codespace-relative path to byte
content (first binding wins). -/

/-- Read a file's bytes, when present. -/
def readFileBytes (fs : List (String × List Nat)) (p : String) :
    Option (List Nat) :=
  (fs.find? (fun kv => kv.1 = p)).map (·.2)

/-- Python `(codespace / rp).exists()` for a codespace-relative path. -/
def fileExists (fs : List (String × List Nat)) (p : String) : Bool :=
  (readFileBytes fs p).isSome

/-- Embedding of `hash_file`: SHA-256 hex digest, or the empty string for
a missing file. -/
def hash_file (fs : List (String × List Nat)) (p : String) : String :=
  match readFileBytes fs p with
  | some bs => sha256hex bs
  | none => ""

/-- Embedding of `snapshot_files`: the dict `{rp: hash}` (duplicate paths
hash identically, so first-binding lookup matches Python's last-wins
dict). -/
def snapshot_files (fs : List (String × List Nat)) (relPaths : List String) :
    List (String × String) :=
  relPaths.map (fun rp => (rp, hash_file fs rp))

/-- Python `d.get(k, dflt)` on a string dict. -/
def dictGetD (d : List (String × String)) (k dflt : String) : String :=
  ((d.find? (fun kv => kv.1 = k)).map (·.2)).getD dflt

/-- Python `k in d` on a string dict. -/
def dictMem (d : List (String × String)) (k : String) : Bool :=
  (d.find? (fun kv => kv.1 = k)).isSome

/-- Embedding of `diff_files`: keep the reported paths whose current hash
differs from the recorded pre-hash (missing files hash to the empty
string). -/
def diff_files (fsAfter : List (String × List Nat))
    (before : List (String × String)) (reported : List String) : List String :=
  reported.filter (fun rp => hash_file fsAfter rp != dictGetD before rp "")

/-- Python `sorted(set(xs))` over strings. -/
def pySortedSet (xs : List String) : List String :=
  pySorted strLe xs.dedup

/-- The modified-file validation block of `run_section` (both
section-loop.py and section_loop/section_engine.py): `related` is
`section.related_files` (= `all_known_paths`, the keys of `pre_hashes`),
`reported` the collected report lines; the result is `actually_changed`. -/
def actually_changed (fsBefore fsAfter : List (String × List Nat))
    (related reported : List String) : List String :=
  let pre := snapshot_files fsBefore related
  let cands := pySortedSet (related ++ reported.filter (fun rp => dictMem pre rp))
  let verified := diff_files fsAfter pre cands
  let unsnap := reported.filter
    (fun rp => !dictMem pre rp && fileExists fsAfter rp)
  pySortedSet (verified ++ unsnap)

/-! ## Paths (model of pathlib for collect_modified_files and the
snapshot loop of post_section_completion)

A path is an absolute flag plus components; `PurePath` parsing drops empty
and `.` components and keeps `..`.  `resolve()` is modelled as lexical
normalization against an absolute base (no symlinks in scope), under which
`..` pops one component and does nothing at the root, exactly as
`Path.resolve` behaves on a symlink-free tree. -/

/-- A parsed pathlib path. -/
structure PyPath where
  absolute : Bool
  comps : List String
deriving DecidableEq, Repr

/-- Parse a path string as `pathlib.Path` does. -/
def parsePath (s : String) : PyPath :=
  ⟨pyStartsWith s "/", (pySplit s "/").filter (fun c => c ≠ "" && c ≠ ".")⟩

/-- One step of lexical normalization: `..` pops one component (and does
nothing at the root), any other component is appended. -/
def resStep (acc : List String) (c : String) : List String :=
  if c = ".." then acc.dropLast else acc ++ [c]

/-- Normalize absolute components: `..` pops, at the root it is dropped. -/
def resolveComps (comps : List String) : List String :=
  comps.foldl resStep []

/-- Python `pathlib` join `base / p` for an absolute base: an absolute `p`
replaces the base. -/
def pyJoin (baseComps : List String) (p : PyPath) : List String :=
  if p.absolute then p.comps else baseComps ++ p.comps

/-- Python `target.relative_to(base)` on resolved absolute paths: the
remainder when `base` is a prefix, `ValueError` (here `none`) otherwise. -/
def relative_to? (target base : List String) : Option (List String) :=
  if base.isPrefixOf target then some (target.drop base.length) else none

/-- Python `str()` of a relative path from its components. -/
def strOfRel (comps : List String) : String :=
  if comps.isEmpty then "." else pyIntercalate "/" comps

/-- Embedding of `collect_modified_files` (identical in section-loop.py
and section_loop/alignment.py): `report` is the text of
`impl-NN-modified.txt`, `codespaceRaw` the components of the absolute
codespace path.  Python accumulates into a set and returns `list(...)`;
this embedding keeps first-occurrence order, which fixes one of the
unspecified set orders.  Unsafe entries are skipped (with a logged
warning in the source); no entry raises.  `collectStep` is the body of
the per-line loop. -/
def collectStep (codespaceRaw : List String) (acc : List String)
    (line : String) : List String :=
  if pyStrip line = "" then acc
  else
    let pp := parsePath (pyStrip line)
    let rel? :=
      if pp.absolute then
        relative_to? (resolveComps pp.comps) (resolveComps codespaceRaw)
      else
        relative_to? (resolveComps (codespaceRaw ++ pp.comps))
          (resolveComps codespaceRaw)
    match rel? with
    | some rel =>
      if acc.contains (strOfRel rel) then acc else acc ++ [strOfRel rel]
    | none => acc

/-- Embedding of `collect_modified_files` (see `collectStep` for the body
of the per-line loop). -/
def collect_modified_files (report : String) (codespaceRaw : List String) :
    List String :=
  (pySplit (pyStrip report) "\n").foldl (collectStep codespaceRaw) []

/-- The snapshot loop of `post_section_completion` (identical in
section-loop.py and section_loop/cross_section.py): for each modified
path, resolve the source under the codespace and the destination under
the snapshot directory, and copy only when the source exists, the source
stays under the resolved codespace, and the destination stays under the
resolved snapshot directory; offending entries are skipped with a
warning.  Returns the performed copies as resolved (source, destination)
component pairs. -/
def snapStep (codespaceRaw snapshotDirRaw : List String)
    (onDisk : List String → Bool) (acc : List (List String × List String))
    (relPath : String) : List (List String × List String) :=
  if !onDisk (resolveComps (pyJoin codespaceRaw (parsePath relPath))) then acc
  else if !(resolveComps codespaceRaw).isPrefixOf
      (resolveComps (pyJoin codespaceRaw (parsePath relPath))) then acc
  else if !(resolveComps snapshotDirRaw).isPrefixOf
      (resolveComps (pyJoin snapshotDirRaw (parsePath relPath))) then acc
  else
    acc ++ [(resolveComps (pyJoin codespaceRaw (parsePath relPath)),
      resolveComps (pyJoin snapshotDirRaw (parsePath relPath)))]

/-- Snapshot copies performed by the loop (see `snapStep` for its body). -/
def snapshot_copies (modifiedFiles : List String)
    (codespaceRaw snapshotDirRaw : List String)
    (onDisk : List String → Bool) : List (List String × List String) :=
  modifiedFiles.foldl (snapStep codespaceRaw snapshotDirRaw onDisk) []

/-! ## Safe parallel batching (run_global_coordination step 3, identical
in section-loop.py and section_loop/coordination.py) -/

/-- Intersection of two string lists under membership (Python set `&`). -/
def listInter (a b : List String) : List String :=
  a.filter (fun x => b.contains x)

/-- Union of the file sets of the groups in a batch (Python accumulates
`batch_files |= group_file_sets[bidx]`; emptiness and membership are what
the algorithm consumes). -/
def unionFiles (fileSets : List (List String)) (batch : List Nat) :
    List String :=
  batch.flatMap (fun i => fileSets.getD i [])

/-- The inner `for batch in batches` placement loop: try to append group
`gidx` to the first batch whose accumulated files are non-empty and
disjoint from `files`; `none` when no batch accepts it. -/
def tryPlace (fileSets : List (List String)) (files : List String)
    (gidx : Nat) : List (List Nat) → Option (List (List Nat))
  | [] => none
  | b :: rest =>
    if (unionFiles fileSets b).isEmpty then
      (tryPlace fileSets files gidx rest).map (b :: ·)
    else if (listInter files (unionFiles fileSets b)).isEmpty then
      some ((b ++ [gidx]) :: rest)
    else
      (tryPlace fileSets files gidx rest).map (b :: ·)

/-- One iteration of the outer `for gidx, files in enumerate(...)` loop:
isolate a group with an empty file set, otherwise place it in the first
compatible batch (`placed`), opening a new batch when none accepts. -/
def placeGroup (fileSets : List (List String)) (batches : List (List Nat))
    (gidx : Nat) : List (List Nat) :=
  if (fileSets.getD gidx []).isEmpty then batches ++ [[gidx]]
  else
    match tryPlace fileSets (fileSets.getD gidx []) gidx batches with
    | some bs => bs
    | none => batches ++ [[gidx]]

/-- Embedding of the batch construction: groups with empty file sets are
isolated; other groups join the first existing compatible batch or open a
new one. -/
def build_batches (fileSets : List (List String)) : List (List Nat) :=
  (List.range fileSets.length).foldl (placeGroup fileSets) []

/-- Two group file sets have no common member. -/
def FilesDisjoint (fileSets : List (List String)) (i j : Nat) : Prop :=
  ∀ x, x ∈ fileSets.getD i [] → x ∈ fileSets.getD j [] → False

/-! ## Proposal-model escalation (run_section, section-loop.py lines
2500-2513 and section_loop/section_engine.py lines 514-537) -/

/-- A recorded model-choice signal. -/
structure ModelChoiceSignal where
  fileName : String
  model : String
  reason : String
  downgraded_from : Option String
deriving DecidableEq, Repr

/-- Modelled from the spec: `write_model_choice_signal` lives in
section_loop/dispatch.py, which is not under src/.  Per spec §4.4 it
writes the signal file `tool-choice-NN-<stage>.json` recording which
model was chosen and why, with the downgraded-from value when
escalated. -/
def write_model_choice_signal (secNum stage model reason : String)
    (downgradedFrom : Option String) : ModelChoiceSignal :=
  ⟨"tool-choice-" ++ secNum ++ "-" ++ stage ++ ".json",
   model, reason, downgradedFrom⟩

/-- Number of incoming consequence notes for a section: the glob
`from-*-to-NN.md` over the notes directory listing. -/
def incoming_notes_count (noteFileNames : List String) (secNum : String) :
    Nat :=
  (noteFileNames.filter
    (fun n => globMatch1 "from-" ("-to-" ++ secNum ++ ".md") n)).length

/-- The adaptive model-escalation block of the monolithic `run_section`
(section-loop.py lines 2503-2513): pick the proposal model from the
attempt count and the incoming-note count.  This code path writes no
tool-choice signal, which the second component records. -/
def proposal_prep_mono (proposalAttempt notesCount : Nat) :
    String × List ModelChoiceSignal :=
  let model :=
    if proposalAttempt ≥ 3 ∨ notesCount ≥ 3 then "gpt-5.3-codex-xhigh"
    else "gpt-5.3-codex-high"
  (model, [])

/-- The same block in the refactored engine (section_engine.py lines
514-537): identical model selection, plus a `write_model_choice_signal`
call on every dispatch carrying the downgraded-from model exactly when
escalated. -/
def proposal_prep_engine (secNum : String) (proposalAttempt notesCount : Nat) :
    String × List ModelChoiceSignal :=
  let escalated : Bool := decide (proposalAttempt ≥ 3 ∨ notesCount ≥ 3)
  let downgradedFrom : Option String :=
    if escalated then some "gpt-5.3-codex-high" else none
  let model :=
    if escalated then "gpt-5.3-codex-xhigh" else "gpt-5.3-codex-high"
  let reason :=
    if escalated then s!"attempt={proposalAttempt}, notes={notesCount}"
    else "first attempt, default model"
  (model,
   [write_model_choice_signal secNum "integration-proposal" model reason
      downgradedFrom])

/-! ## Core entities -/

/-- The `Section` dataclass of section-loop.py (paths as strings). -/
structure Section where
  number : String
  path : String := ""
  global_proposal_path : String := ""
  global_alignment_path : String := ""
  related_files : List String := []
  solve_count : Nat := 0
deriving DecidableEq, Repr

/-- The `SectionResult` dataclass (section-loop.py lines 2983-2989 and
section_loop/types.py). -/
structure SectionResult where
  section_number : String
  aligned : Bool := false
  problems : Option String := none
  modified_files : List String := []
deriving DecidableEq, Repr

/-- Python `d.get(k)` over an insertion-ordered dict modelled as an
association list (keys unique). -/
def alGet {α : Type} (d : List (String × α)) (k : String) : Option α :=
  (d.find? (fun kv => kv.1 = k)).map (·.2)

/-- Python `d[k] = v` on an insertion-ordered dict: update in place, or
append a new binding. -/
def alSet {α : Type} (d : List (String × α)) (k : String) (v : α) :
    List (String × α) :=
  if (alGet d k).isSome then
    d.map (fun kv => if kv.1 = k then (k, v) else kv)
  else d ++ [(k, v)]

/-! ## Outstanding-problem collection

Two implementations exist: `_collect_outstanding_problems` in
section-loop.py decides unaddressed notes from section-number ordering,
while the refactored section_loop/coordination.py decides them from the
stable note id against the target's note-ack signal. -/

/-- One collected coordination problem (the refactored collector also
attaches the note id). -/
structure Problem where
  sec : String
  ptype : String
  note_id : Option String := none
  description : String
  files : List String
deriving DecidableEq, Repr, Inhabited

/-- The prefix match `re.match(r"from-(\d+)-to-(\d+)\.md", name)`:
greedy digit runs around the literal pieces, trailing characters
permitted. -/
def parseNoteName (name : String) : Option (String × String) :=
  if pyStartsWith name "from-" then
    let rest := name.data.drop 5
    let d1 := rest.takeWhile Char.isDigit
    let r1 := rest.drop d1.length
    if d1 ≠ [] ∧ pyStartsWith (String.mk r1) "-to-" then
      let rest2 := r1.drop 4
      let d2 := rest2.takeWhile Char.isDigit
      let r2 := rest2.drop d2.length
      if d2 ≠ [] ∧ pyStartsWith (String.mk r2) ".md" then
        some (String.mk d1, String.mk d2)
      else none
    else none
  else none

/-- Related files of a section number, `[]` when unknown (the
`sections_by_num.get` / `if section else []` pattern). -/
def relatedOf (sectionsByNum : List (String × Section)) (num : String) :
    List String :=
  match alGet sectionsByNum num with
  | some s => s.related_files
  | none => []

/-- The misaligned-section part shared by both collectors: one
`misaligned` problem per result that is not aligned and has a non-empty
problems text. -/
def misalignedProblems (sectionResults : List (String × SectionResult))
    (sectionsByNum : List (String × Section)) : List Problem :=
  sectionResults.foldl (fun acc kv =>
    if kv.2.aligned then acc
    else
      match kv.2.problems with
      | some p =>
        if p ≠ "" then
          acc ++ [⟨kv.1, "misaligned", none, p, relatedOf sectionsByNum kv.1⟩]
        else acc
      | none => acc) []

/-- Note files in the order `sorted(notes_dir.glob(...))` delivers them:
sorted by file name. -/
def sortedNotes (noteFiles : List (String × String)) :
    List (String × String) :=
  pySorted (fun a b => strLe a.1 b.1) noteFiles

/-- Embedding of `_collect_outstanding_problems` from section-loop.py:
a note targeting an aligned section counts as unaddressed exactly when
`int(source) > int(target)`; acknowledgment signals are never read. -/
def collect_monolith (sectionResults : List (String × SectionResult))
    (sectionsByNum : List (String × Section))
    (noteFiles : List (String × String)) : List Problem :=
  misalignedProblems sectionResults sectionsByNum ++
  (sortedNotes noteFiles).foldl (fun acc nf =>
    match parseNoteName nf.1 with
    | none => acc
    | some (srcNum, tgtNum) =>
      match alGet sectionResults tgtNum with
      | some tr =>
        if tr.aligned ∧ digitsVal srcNum > digitsVal tgtNum then
          acc ++ [⟨tgtNum, "unaddressed_note", none,
            "Consequence note from section " ++ srcNum ++
            " arrived after section " ++ tgtNum ++
            " was aligned. Note content:\n" ++ pyTake nf.2 500,
            relatedOf sectionsByNum tgtNum⟩]
        else acc
      | none => acc) []

/-- The stable note id: `sha256(f"{name}:{sha256(content).hexdigest()}")`
truncated to 12 hex characters — the formula both the note writer and
the refactored collector use. -/
def noteId (fileName content : String) : String :=
  pyTake (sha256hex (strBytes (fileName ++ ":" ++ sha256hex (strBytes content)))) 12

/-- One acknowledgment entry of a `note-ack-NN.json` signal
(`a.get("note_id")` may be absent, hence the option). -/
structure AckEntry where
  note_id : Option String := none
  action : String := ""
  reason : String := ""
deriving DecidableEq, Repr

/-- Modelled from the spec: `read_agent_signal` (section_loop/dispatch.py,
not under src/) reads and JSON-parses a signal file, yielding the decoded
object or nothing when the file is missing or unreadable; per spec §4.4
the `note-ack-NN.json` signal carries
`acknowledged: [{note_id, action, reason}]`.  Acknowledgment state is
passed in decoded form: per target section, optionally its entry list
(a missing or falsy signal is `none`). -/
def read_note_acks (ackSignals : List (String × List AckEntry))
    (targetNum : String) : Option (List AckEntry) :=
  alGet ackSignals targetNum

/-- Embedding of `_collect_outstanding_problems` from
section_loop/coordination.py: a note targeting an aligned section counts
as unaddressed exactly when its recomputed id is not acknowledged in the
target's note-ack signal; section-number order is never compared. -/
def collect_pkg (sectionResults : List (String × SectionResult))
    (sectionsByNum : List (String × Section))
    (noteFiles : List (String × String))
    (ackSignals : List (String × List AckEntry)) : List Problem :=
  misalignedProblems sectionResults sectionsByNum ++
  (sortedNotes noteFiles).foldl (fun acc nf =>
    match parseNoteName nf.1 with
    | none => acc
    | some (srcNum, tgtNum) =>
      match alGet sectionResults tgtNum with
      | none => acc
      | some tr =>
        if !tr.aligned then acc
        else
          let nid := noteId nf.1 nf.2
          let acked :=
            match read_note_acks ackSignals tgtNum with
            | some acks => acks.any (fun a => a.note_id = some nid)
            | none => false
          if acked then acc
          else
            acc ++ [⟨tgtNum, "unaddressed_note", some nid,
              "Consequence note " ++ nid ++ " from section " ++ srcNum ++
              " has not been acknowledged by section " ++ tgtNum ++
              ". Note content:\n" ++ pyTake nf.2 500,
              relatedOf sectionsByNum tgtNum⟩]) []

/-! ## Consequence-note writing (section_loop/cross_section.py,
post_section_completion step (c))

The writer computes the stable id over a four-line draft, then writes the
full note template — which embeds the id and further text — to
`from-SRC-to-DST.md`. -/

/-- File name of the consequence note for a (source, target) pair. -/
def noteFileName (secNum targetNum : String) : String :=
  "from-" ++ secNum ++ "-to-" ++ targetNum ++ ".md"

/-- The note heading. -/
def noteHeading (secNum targetNum : String) : String :=
  "# Consequence Note: Section " ++ secNum ++ " -> Section " ++ targetNum

/-- The bulleted list of modified files, one backquoted path per line. -/
def noteFileChanges (modifiedFiles : List String) : String :=
  pyIntercalate "\n" (modifiedFiles.map (fun rel => "- `" ++ rel ++ "`"))

/-- The contracts text: the extracted summary, or the fixed fallback. -/
def noteContracts (contractsSummary : String) : String :=
  if contractsSummary ≠ "" then contractsSummary
  else "(No explicit contracts extracted from integration proposal.)"

/-- The `note_content_draft` the writer hashes for the id. -/
def noteDraft (secNum targetNum contractsSummary reason : String)
    (modifiedFiles : List String) : String :=
  noteHeading secNum targetNum ++ "\n" ++ noteContracts contractsSummary ++
  "\n" ++ reason ++ "\n" ++ noteFileChanges modifiedFiles

/-- Embedding of the note write: returns the embedded id and the file
content actually written.  `planspace` is `str()` of the planspace path,
`sectionSummary` the extracted section summary, `contractsSummary` the
result of `_extract_contracts_summary`, `reason` the impact reason. -/
def write_consequence_note (planspace secNum targetNum sectionSummary
    contractsSummary reason : String) (modifiedFiles : List String) :
    String × String :=
  let fileChanges := noteFileChanges modifiedFiles
  let contracts := noteContracts contractsSummary
  let nid := noteId (noteFileName secNum targetNum)
    (noteDraft secNum targetNum contractsSummary reason modifiedFiles)
  let integrationProposal :=
    planspace ++ "/artifacts/proposals/section-" ++ secNum ++
      "-integration-proposal.md"
  let snapshotDir := planspace ++ "/artifacts/snapshots/section-" ++ secNum
  let content :=
    noteHeading secNum targetNum ++ "\n\n**Note ID**: `" ++ nid ++
    "`\n\n## Contract Deltas (read this first)\n" ++ contracts ++
    "\n\n## What Section " ++ targetNum ++ " Must Accommodate\n" ++ reason ++
    "\n\n## Acknowledgment Required\n\nWhen you process this note, write an acknowledgment to\n`" ++
    planspace ++ "/artifacts/signals/note-ack-" ++ targetNum ++
    ".json`:\n```json\n\x7b\"acknowledged\": [\x7b\"note_id\": \"" ++ nid ++
    "\", \"action\": \"accepted|rejected|deferred\", \"reason\": \"...\"\x7d]\x7d\n```\n\n## Why This Happened\nSection " ++
    secNum ++ " (" ++ sectionSummary ++
    ") implemented changes to solve its\ndesignated problem. Impact reason: " ++
    reason ++ "\n\n## Files Modified (for reference)\n" ++ fileChanges ++
    "\n\nFull integration proposal: `" ++ integrationProposal ++
    "`\nSnapshot directory: `" ++ snapshotDir ++ "`\n"
  (nid, content)

/-! ## SectionResult constructors (the four operations that create or
overwrite a result in section-loop.py `_run_loop` and
`run_global_coordination`) -/

/-- Phase 1 completion (lines 4003-4008): a section that finished its
internal alignment loop. -/
def phase1_result (secNum : String) (modifiedFiles : List String) :
    SectionResult :=
  ⟨secNum, true, none, modifiedFiles⟩

/-- Greenfield classification (lines 3943-3948): re-exploration found no
related files. -/
def greenfield_result (secNum : String) : SectionResult :=
  ⟨secNum, true,
   some "greenfield — no existing code to integrate with", []⟩

/-- The `combined_problems` folding of an extraction result and a signal
(`problems or ""`, appended `[signal:...]`, then `or None`). -/
def combineProblems (problems : Option String)
    (signal : Option (String × String)) : Option String :=
  let c0 := problems.getD ""
  let c1 :=
    match signal with
    | some sd =>
      if c0 ≠ "" then c0 ++ "\n[signal:" ++ sd.1 ++ "] " ++ sd.2
      else "[signal:" ++ sd.1 ++ "] " ++ sd.2
    | none => c0
  if c1 ≠ "" then some c1 else none

/-- Phase 2 re-check (lines 4064-4108): `alignOut = none` models the
all-retries timeout; otherwise the judge output is classified by
`_extract_problems` together with the signal check. -/
def phase2_recheck_result (secNum : String) (alignOut : Option String)
    (signal : Option (String × String)) (prevModified : List String) :
    SectionResult :=
  match alignOut with
  | none =>
    ⟨secNum, false, some "alignment check timed out after retries",
     prevModified⟩
  | some out =>
    let p := extract_problems_mono out
    if p = none ∧ signal = none then ⟨secNum, true, none, prevModified⟩
    else ⟨secNum, false, combineProblems p signal, prevModified⟩

/-- Coordinator re-alignment (lines 3723-3758): the same classification
without carrying modified files. -/
def coord_realign_result (secNum : String) (alignOut : Option String)
    (signal : Option (String × String)) : SectionResult :=
  match alignOut with
  | none =>
    ⟨secNum, false, some "alignment check timed out after retries", []⟩
  | some out =>
    let p := extract_problems_mono out
    if p = none ∧ signal = none then ⟨secNum, true, none, []⟩
    else ⟨secNum, false, combineProblems p signal, []⟩

/-! ## The Phase-2 tail of `_run_loop` (section-loop.py lines 4020-4239)

The only two `complete` sends of the program (lines 4128 and 4178) live
here.  External interactions are oracles: each control poll yields one of
clean / alignment-changed / abort (an abort makes `poll_control_messages`
send the fail message and exit the process), and each alignment dispatch
yields the `ALIGNMENT_CHANGED_PENDING` sentinel, an all-retries timeout,
or output text.  Phase 1 (which never names `complete`) and the restart
into a fresh Phase 1 are outside the model: a restart is a terminal
outcome of this embedding. -/

/-- Result of one control-message poll. -/
inductive Ctrl
  | clean
  | alignmentChanged
  | abortMsg
deriving DecidableEq, Repr

/-- Result of `_run_alignment_check_with_retries`. -/
inductive AlignOut
  | sentinel
  | timeoutAll
  | output (s : String)
deriving DecidableEq, Repr

/-- Oracles for one section of the Phase-2 re-alignment sweep. -/
structure SweepSecEnv where
  ctrl : Ctrl
  align : AlignOut
  signal : Option (String × String)

/-- Oracles for one section re-check inside a coordination round. -/
structure RealignEnv where
  skip : Bool
  ctrl : Ctrl
  align : AlignOut
  signal : Option (String × String)

/-- Oracles for one coordination round: the pre-plan poll, whether the
planner dispatch returned the sentinel, the parsed plan groups (`none`
triggers the one-problem-per-group fallback), the per-batch polls, the
per-group fix outcomes (`none` is the sentinel), and the per-section
re-alignment oracles. -/
structure RoundEnv where
  ctrlPrePlan : Ctrl
  planSentinel : Bool
  planGroups : Option (List (List Nat))
  ctrlPreBatch : Nat → Ctrl
  fixFiles : Nat → Option (List String)
  realign : String → RealignEnv

/-- Oracles for the whole Phase-2 tail. -/
structure Phase2Env where
  sweep : String → SweepSecEnv
  finalCtrlA : Ctrl
  ctrlPreRound : Nat → Ctrl
  rounds : Nat → RoundEnv
  finalCtrlB : Nat → Ctrl

/-- Terminal outcome of one Phase-2 iteration. -/
inductive ExitKind
  | completed
  | restart
  | aborted
  | exhausted
  | fellThrough
deriving DecidableEq, Repr

/-- Hard cap on coordination rounds. -/
def MAX_COORDINATION_ROUNDS : Nat := 10

/-- Minimum number of coordination rounds before stall termination. -/
def MIN_COORDINATION_ROUNDS : Nat := 2

/-- Outcome of one `run_global_coordination` call. -/
inductive RgcOut
  | allDone
  | notDone
  | interrupted
  | abortedRun
deriving DecidableEq, Repr

/-- Embedding of `build_file_to_sections`. -/
def build_file_to_sections (sections : List Section) :
    List (String × List String) :=
  sections.foldl (fun mapping sec =>
    sec.related_files.foldl (fun m f =>
      match alGet m f with
      | some xs => alSet m f (xs ++ [sec.number])
      | none => alSet m f [sec.number]) mapping) []

/-- The fix-execution loop over batches (run_global_coordination step 3):
each batch is preceded by a control poll; a sentinel from any fix
dispatch in the batch makes the call return `False` (here: interrupted).
The bridge dispatches have no control effect (their results are
discarded by the source) and the parallel completion order is modelled
as batch order.  Returns the accumulated `all_modified` on success. -/
def execBatches (env : RoundEnv) :
    List (List Nat) → Nat → List (List Problem) → List String →
    (Option (List String)) × Bool × List String
  | [], _, _, acc => (some acc, false, [])
  | batch :: rest, batchNum, groups, acc =>
    match env.ctrlPreBatch batchNum with
    | .alignmentChanged => (none, false, [])
    | .abortMsg => (none, true, ["fail:aborted"])
    | .clean =>
      let fixes := batch.map env.fixFiles
      if fixes.any (·.isNone) then (none, false, [])
      else
        execBatches env rest (batchNum + 1) groups
          (acc ++ fixes.flatMap (fun f => f.getD []))

/-- The per-section re-alignment loop of run_global_coordination step 4,
over the sorted affected sections. -/
def realignFold (env : RoundEnv) (sectionsByNum : List (String × Section)) :
    List String → List (String × SectionResult) →
    (Option (List (String × SectionResult))) × Bool × List String ×
      List (String × SectionResult)
  | [], results => (some results, false, [], results)
  | secNum :: rest, results =>
    match alGet sectionsByNum secNum with
    | none => realignFold env sectionsByNum rest results
    | some _ =>
      let re := env.realign secNum
      if re.skip then realignFold env sectionsByNum rest results
      else
        match re.ctrl with
        | .alignmentChanged => (none, false, [], results)
        | .abortMsg =>
          (none, true, ["fail:" ++ secNum ++ ":aborted"], results)
        | .clean =>
          match re.align with
          | .sentinel => (none, false, [], results)
          | .timeoutAll =>
            realignFold env sectionsByNum rest
              (alSet results secNum (coord_realign_result secNum none none))
          | .output out =>
            realignFold env sectionsByNum rest
              (alSet results secNum
                (coord_realign_result secNum (some out) re.signal))

/-- Embedding of `run_global_coordination`: collect problems (empty means
`True` immediately), plan, batch, execute fixes, re-align affected
sections, and report whether every result is aligned.  Returns the
outcome, the updated results, and the parent mail sent (abort fails
only; summary mirroring is not parent mail). -/
def run_global_coordination (sections : List Section)
    (sectionsByNum : List (String × Section))
    (noteFiles : List (String × String)) (env : RoundEnv)
    (results : List (String × SectionResult)) :
    RgcOut × List (String × SectionResult) × List String :=
  let problems := collect_monolith results sectionsByNum noteFiles
  if problems.isEmpty then (.allDone, results, [])
  else
    match env.ctrlPrePlan with
    | .alignmentChanged => (.interrupted, results, [])
    | .abortMsg => (.abortedRun, results, ["fail:aborted"])
    | .clean =>
      if env.planSentinel then (.interrupted, results, [])
      else
        let confirmedGroups : List (List Problem) :=
          match env.planGroups with
          | some gs => gs.map (fun idxs => idxs.map (problems.getD · default))
          | none => (List.range problems.length).map
              (fun i => [problems.getD i default])
        let groupFileSets := confirmedGroups.map (fun g => g.flatMap (·.files))
        let batches := build_batches groupFileSets
        match execBatches env batches 0 confirmedGroups [] with
        | (none, true, msgs) => (.abortedRun, results, msgs)
        | (none, false, _) => (.interrupted, results, [])
        | (some allModified, _, _) =>
          let fileToSections := build_file_to_sections sections
          let affected :=
            problems.map (·.sec) ++
            allModified.flatMap (fun f => (alGet fileToSections f).getD [])
          match realignFold env sectionsByNum (pySortedSet affected) results with
          | (none, true, msgs, results2) => (.abortedRun, results2, msgs)
          | (none, false, _, results2) => (.interrupted, results2, [])
          | (some results2, _, _, _) =>
            if (results2.filter (fun kv => !kv.2.aligned)).isEmpty then
              (.allDone, results2, [])
            else (.notDone, results2, [])

/-- The tail after the coordination loop stops without a restart
(section-loop.py lines 4216-4232): emit one `coordination_exhausted`
fail per remaining section. -/
def exhaustedTail (results : List (String × SectionResult)) :
    List String × List (String × SectionResult) × ExitKind :=
  let remaining := results.filter (fun kv => !kv.2.aligned)
  if remaining.isEmpty then ([], results, .fellThrough)
  else
    (remaining.map (fun kv =>
      let p :=
        match kv.2.problems with
        | some s => if s ≠ "" then s else "unknown"
        | none => "unknown"
      "fail:" ++ kv.2.section_number ++ ":coordination_exhausted:" ++
        pyTake p 120),
     results, .exhausted)

/-- The adaptive coordination loop of `_run_loop` (lines 4140-4232).
Arguments mirror the loop state: current results, `prev_unresolved`,
`stall_count`, `round_num`, and the remaining round budget
(`MAX_COORDINATION_ROUNDS - round_num`). -/
def coordLoop (env : Phase2Env) (sections : List Section)
    (sectionsByNum : List (String × Section))
    (noteFiles : List (String × String)) :
    List (String × SectionResult) → Nat → Nat → Nat → Nat →
    List String × List (String × SectionResult) × ExitKind
  | results, _, _, _, 0 => exhaustedTail results
  | results, prev, stall, roundNum, fuel + 1 =>
    let rn := roundNum + 1
    match env.ctrlPreRound rn with
    | .alignmentChanged => ([], results, .restart)
    | .abortMsg => (["fail:aborted"], results, .aborted)
    | .clean =>
      let statusMsg := "status:coordination:round-" ++ toString rn
      match run_global_coordination sections sectionsByNum noteFiles
          (env.rounds rn) results with
      | (.abortedRun, results2, msgs) =>
        ([statusMsg] ++ msgs, results2, .aborted)
      | (.interrupted, results2, _) => ([statusMsg], results2, .restart)
      | (.allDone, results2, _) =>
        (match env.finalCtrlB rn with
        | .alignmentChanged => ([statusMsg], results2, .restart)
        | .abortMsg => ([statusMsg, "fail:aborted"], results2, .aborted)
        | .clean => ([statusMsg, "complete"], results2, .completed))
      | (.notDone, results2, _) =>
        let cur := (results2.filter (fun kv => !kv.2.aligned)).length
        if cur ≥ prev then
          let stall2 := stall + 1
          let escMsgs :=
            if stall2 = 2 then
              ["escalation:coordination:round-" ++ toString rn ++
                ":stall_count=" ++ toString stall2]
            else []
          if rn ≥ MIN_COORDINATION_ROUNDS ∧ stall2 ≥ 3 then
            let tail := exhaustedTail results2
            ([statusMsg] ++ escMsgs ++ tail.1, tail.2.1, tail.2.2)
          else
            let tail := coordLoop env sections sectionsByNum noteFiles
              results2 cur stall2 rn fuel
            ([statusMsg] ++ escMsgs ++ tail.1, tail.2.1, tail.2.2)
        else
          let tail := coordLoop env sections sectionsByNum noteFiles
            results2 cur 0 rn fuel
          ([statusMsg] ++ tail.1, tail.2.1, tail.2.2)

/-- The Phase-2 re-alignment sweep (lines 4037-4110): sections without
related files are skipped; each other section gets a control poll, an
alignment check with retries, and a signal check, its result overwritten
accordingly. -/
def sweepFold (env : Phase2Env) :
    List (String × Section) → List (String × SectionResult) →
    (Option (List (String × SectionResult))) × Bool × List String ×
      List (String × SectionResult)
  | [], results => (some results, false, [], results)
  | (num, s) :: rest, results =>
    if s.related_files.isEmpty then sweepFold env rest results
    else
      let e := env.sweep num
      match e.ctrl with
      | .alignmentChanged => (none, false, [], results)
      | .abortMsg => (none, true, ["fail:" ++ num ++ ":aborted"], results)
      | .clean =>
        let prevMod := ((alGet results num).map (·.modified_files)).getD []
        match e.align with
        | .sentinel => (none, false, [], results)
        | .timeoutAll =>
          sweepFold env rest
            (alSet results num (phase2_recheck_result num none none prevMod))
        | .output out =>
          sweepFold env rest
            (alSet results num
              (phase2_recheck_result num (some out) e.signal prevMod))

/-- Embedding of the Phase-2 tail of `_run_loop`: the sweep, the
all-aligned gate at line 4115 (site A), and the coordination loop whose
all-done gate at line 4167 is site B.  These are the only places the
program sends `complete`. -/
def phase2Tail (env : Phase2Env) (sections : List Section)
    (sectionsByNum : List (String × Section))
    (noteFiles : List (String × String))
    (results0 : List (String × SectionResult)) :
    List String × List (String × SectionResult) × ExitKind :=
  match sweepFold env sectionsByNum results0 with
  | (none, true, msgs, results) => (msgs, results, .aborted)
  | (none, false, _, results) => ([], results, .restart)
  | (some results, _, _, _) =>
    let misaligned := results.filter (fun kv => !kv.2.aligned)
    if misaligned.isEmpty then
      match env.finalCtrlA with
      | .alignmentChanged => ([], results, .restart)
      | .abortMsg => (["fail:aborted"], results, .aborted)
      | .clean => (["complete"], results, .completed)
    else
      coordLoop env sections sectionsByNum noteFiles results
        misaligned.length 0 0 MAX_COORDINATION_ROUNDS

/-- The claim's notion of an unacknowledged consequence note: a note file
whose stable id is not acknowledged in the target's note-ack signal. -/
def unackedNoteExists (noteFiles : List (String × String))
    (ackSignals : List (String × List AckEntry)) : Bool :=
  noteFiles.any (fun nf =>
    match parseNoteName nf.1 with
    | some st =>
      !(((read_note_acks ackSignals st.2).getD []).any
        (fun a => a.note_id = some (noteId nf.1 nf.2)))
    | none => false)

/-! ## A concrete Phase-2 run (all polls clean, every judge says ALIGNED) -/

/-- A Phase-2 oracle where every control poll is clean and every
alignment dispatch returns the bare `ALIGNED` verdict. -/
def cleanAlignedEnv : Phase2Env where
  sweep := fun _ => ⟨.clean, .output "ALIGNED", none⟩
  finalCtrlA := .clean
  ctrlPreRound := fun _ => .clean
  rounds := fun _ =>
    ⟨.clean, false, none, fun _ => .clean, fun _ => some [],
     fun _ => ⟨false, .clean, .output "ALIGNED", none⟩⟩
  finalCtrlB := fun _ => .clean

/-- Two concrete sections with disjoint related files. -/
def c1Sections : List Section :=
  [⟨"01", "", "", "", ["a.go"], 0⟩, ⟨"02", "", "", "", ["b.go"], 0⟩]

/-- The same two sections keyed by number. -/
def c1SecsByNum : List (String × Section) :=
  [("01", ⟨"01", "", "", "", ["a.go"], 0⟩),
   ("02", ⟨"02", "", "", "", ["b.go"], 0⟩)]

/-- One consequence note from section 01 to section 02. -/
def c1Notes : List (String × String) := [("from-01-to-02.md", "delta")]

/-- Phase-1 results: both sections aligned. -/
def c1Results0 : List (String × SectionResult) :=
  [("01", ⟨"01", true, none, ["a.go"]⟩),
   ("02", ⟨"02", true, none, ["b.go"]⟩)]

set_option maxRecDepth 100000

/-! ## Theorems -/

/-- FIPS 180-4 test vector: the embedding computes the standard digest of
the three-byte message `abc`. -/
theorem sha256hex_abc :
    sha256hex (strBytes "abc") =
      "ba7816bf8f01cfea414140de5dae2223b00361a396177a9cb410ff61f20015ad" := by
  decide

/-- C10: when the pipeline-state query returns empty or unparseable
output — in particular on a freshly initialized run database with no
pipeline-state lifecycle event — `check_pipeline_state` reports
`running`, and `wait_if_paused` returns immediately, entering no recv
loop and sending no message (in particular no `status:paused`). -/
theorem c10_fresh_state_is_running (stdout parent : String) (tr : WaitTrace)
    (fuel : Nat)
    (h : pyStrip stdout = "" ∨ (pySplit (pyStrip stdout) "|").length < 5
      ∨ ((pySplit (pyStrip stdout) "|").getD 4 "") = "") :
    check_pipeline_state stdout = "running" ∧
      wait_if_paused parent stdout tr fuel = ([], .returned) := by
  have hc : check_pipeline_state stdout = "running" := by
    unfold check_pipeline_state
    show (if pyStrip stdout ≠ "" then
        if (pySplit (pyStrip stdout) "|").length ≥ 5 ∧
            (pySplit (pyStrip stdout) "|").getD 4 "" ≠ "" then
          (pySplit (pyStrip stdout) "|").getD 4 ""
        else "running"
      else "running") = "running"
    by_cases hl : pyStrip stdout = ""
    · exact if_neg (fun hn => hn hl)
    · rw [if_pos hl]
      have hcond : ¬((pySplit (pyStrip stdout) "|").length ≥ 5 ∧
          (pySplit (pyStrip stdout) "|").getD 4 "" ≠ "") := by
        rcases h with h | h | h
        · exact absurd h hl
        · exact fun hc => absurd hc.1 (by omega)
        · exact fun hc => hc.2 h
      rw [if_neg hcond]
  refine ⟨hc, ?_⟩
  unfold wait_if_paused
  rw [hc]
  simp

/-- Witness for C10 at the concrete empty query output. -/
theorem c10_witness :
    check_pipeline_state "" = "running" ∧
      wait_if_paused "parent" "" ⟨fun _ => "", fun _ => ""⟩ 3 =
        ([], .returned) :=
  c10_fresh_state_is_running "" "parent" ⟨fun _ => "", fun _ => ""⟩ 3
    (Or.inl (by decide))

/-- C8 counterexample: an output whose first non-empty line is exactly
`ALIGNED` and which contains neither `PROBLEMS:` nor `UNDERSPECIFIED` —
so the claim requires it to classify as aligned — is classified as
misaligned by the refactored extractor, because its structured JSON
verdict carries `aligned: false` and takes precedence over the text. -/
theorem c8_counterexample :
    firstNonEmptyLine
        "ALIGNED\n\x7b\"frame_ok\": true, \"aligned\": false\x7d" =
      "ALIGNED" ∧
    containsSub "ALIGNED\n\x7b\"frame_ok\": true, \"aligned\": false\x7d"
        "PROBLEMS:" = false ∧
    containsSub "ALIGNED\n\x7b\"frame_ok\": true, \"aligned\": false\x7d"
        "UNDERSPECIFIED" = false ∧
    extract_problems_pkg
        "ALIGNED\n\x7b\"frame_ok\": true, \"aligned\": false\x7d" =
      some "Alignment judge reported misaligned (no details in verdict)" ∧
    extract_problems_mono
        "ALIGNED\n\x7b\"frame_ok\": true, \"aligned\": false\x7d" = none := by
  decide

/-- C8 amended: the legacy extractor classifies an output as aligned
(`none`) exactly when its first non-empty line is the exact string
`ALIGNED` and the output contains no `PROBLEMS:` and no `UNDERSPECIFIED`
substring; the refactored extractor behaves identically whenever no
structured JSON verdict parses (a parsed verdict takes precedence). -/
theorem c8_amended :
    (∀ r : String,
      extract_problems_mono r = none ↔
        firstNonEmptyLine r = "ALIGNED"
          ∧ containsSub r "PROBLEMS:" = false
          ∧ containsSub r "UNDERSPECIFIED" = false) ∧
    (∀ r : String, parse_alignment_verdict r = none →
      extract_problems_pkg r = extract_problems_mono r) := by
  constructor
  · intro r
    unfold extract_problems_mono
    split_ifs with h1 h2
    · simpa using h1
    · simp [h1]
    · simp [h1]
  · intro r hp
    unfold extract_problems_pkg
    rw [hp]

/-- Witness for C8 at a concrete verdict-free output. -/
theorem c8_witness :
    extract_problems_pkg "MISALIGNED for reasons" =
      extract_problems_mono "MISALIGNED for reasons" :=
  c8_amended.2 "MISALIGNED for reasons" rfl

/-- C6 counterexample: in the monolithic `run_section`, the proposal
dispatch at attempt 3 escalates to the stronger tier yet records no
tool-choice signal, contradicting the claim that every such escalation
records one. -/
theorem c6_counterexample :
    (proposal_prep_mono 3 0).1 = "gpt-5.3-codex-xhigh" ∧
      (proposal_prep_mono 3 0).2 = [] := by
  decide

/-- C6 amended: both implementations select the standard-tier Codex model
unless the attempt count reaches 3 or the incoming-note count reaches 3,
in which case the stronger tier is used.  The refactored engine records a
`tool-choice-NN-integration-proposal.json` signal on every dispatch,
whose downgraded-from field carries the previous model exactly when
escalated; the legacy monolithic path records no tool-choice signal. -/
theorem c6_amended (sec : String) (attempt notes : Nat) :
    ((proposal_prep_mono attempt notes).1 = "gpt-5.3-codex-xhigh" ↔
      (attempt ≥ 3 ∨ notes ≥ 3)) ∧
    ((proposal_prep_mono attempt notes).1 = "gpt-5.3-codex-high" ↔
      ¬(attempt ≥ 3 ∨ notes ≥ 3)) ∧
    (proposal_prep_mono attempt notes).2 = [] ∧
    (proposal_prep_engine sec attempt notes).1 =
      (proposal_prep_mono attempt notes).1 ∧
    (proposal_prep_engine sec attempt notes).2.map (·.downgraded_from) =
      [if attempt ≥ 3 ∨ notes ≥ 3 then some "gpt-5.3-codex-high" else none] ∧
    (proposal_prep_engine sec attempt notes).2.map (·.fileName) =
      ["tool-choice-" ++ sec ++ "-integration-proposal.json"] := by
  by_cases h : attempt ≥ 3 ∨ notes ≥ 3 <;>
    simp [proposal_prep_mono, proposal_prep_engine,
      write_model_choice_signal, h, String.append_assoc]

/-- Witness for C6 at a concrete escalated dispatch. -/
theorem c6_witness :
    (proposal_prep_engine "01" 1 3).2.map (·.downgraded_from) =
      [if (1 : Nat) ≥ 3 ∨ (3 : Nat) ≥ 3 then some "gpt-5.3-codex-high"
       else none] :=
  (c6_amended "01" 1 3).2.2.2.2.1

/-- C4 counterexample: the greenfield classification creates a
`SectionResult` with `aligned = true` and a non-null problems text,
violating the claimed invariant. -/
theorem c4_counterexample :
    (greenfield_result "03").aligned = true ∧
      (greenfield_result "03").problems ≠ none := by
  decide

/-- C4 amended: Phase 1 completion, the Phase 2 re-check, and the
coordinator re-alignment all preserve the invariant that an aligned
result has null problems; the greenfield classification is the
exception, producing `aligned = true` together with the greenfield
problem note. -/
theorem c4_amended (sec : String) (files prevMod : List String)
    (alignOut : Option String) (signal : Option (String × String)) :
    ((phase1_result sec files).aligned = true →
      (phase1_result sec files).problems = none) ∧
    ((phase2_recheck_result sec alignOut signal prevMod).aligned = true →
      (phase2_recheck_result sec alignOut signal prevMod).problems = none) ∧
    ((coord_realign_result sec alignOut signal).aligned = true →
      (coord_realign_result sec alignOut signal).problems = none) ∧
    (greenfield_result sec).aligned = true ∧
    (greenfield_result sec).problems =
      some "greenfield — no existing code to integrate with" := by
  refine ⟨fun _ => rfl, ?_, ?_, rfl, rfl⟩
  · cases alignOut with
    | none => simp [phase2_recheck_result]
    | some out =>
      dsimp only [phase2_recheck_result]
      split <;> simp
  · cases alignOut with
    | none => simp [coord_realign_result]
    | some out =>
      dsimp only [coord_realign_result]
      split <;> simp

/-- Witness for C4 at a concrete aligned re-check. -/
theorem c4_witness :
    (phase2_recheck_result "01" (some "ALIGNED") none []).problems = none :=
  (c4_amended "01" [] [] (some "ALIGNED") none).2.1 (by decide)

/-- Membership is invariant under `insertSorted`. -/
theorem mem_insertSorted {α : Type} (le : α → α → Bool) (x a : α)
    (l : List α) : a ∈ insertSorted le x l ↔ a = x ∨ a ∈ l := by
  induction l with
  | nil => simp [insertSorted]
  | cons y ys ih =>
    unfold insertSorted
    split_ifs with hle
    · simp only [List.mem_cons]
    · simp only [List.mem_cons, ih]
      tauto

/-- Membership is invariant under `pySorted`. -/
theorem mem_pySorted {α : Type} (le : α → α → Bool) (a : α) (l : List α) :
    a ∈ pySorted le l ↔ a ∈ l := by
  induction l with
  | nil => simp [pySorted]
  | cons y ys ih =>
    unfold pySorted at ih ⊢
    simp only [List.foldr_cons, mem_insertSorted, ih, List.mem_cons]

/-- Membership is invariant under `pySortedSet`. -/
theorem mem_pySortedSet (a : String) (l : List String) :
    a ∈ pySortedSet l ↔ a ∈ l := by
  unfold pySortedSet
  rw [mem_pySorted, List.mem_dedup]

/-- A lookup over a keyed map hits exactly the listed keys. -/
theorem find?_map_key {β : Type} (g : String → β) (l : List String)
    (f : String) :
    (l.map (fun rp => (rp, g rp))).find? (fun kv => kv.1 = f) =
      if f ∈ l then some (f, g f) else none := by
  induction l with
  | nil => simp
  | cons r rs ih =>
    simp only [List.map_cons]
    by_cases hr : r = f
    · subst hr
      rw [List.find?_cons_of_pos _ (by simp)]
      simp
    · rw [List.find?_cons_of_neg _ (by simp [hr]), ih]
      by_cases hm : f ∈ rs
      · rw [if_pos hm, if_pos (List.mem_cons_of_mem _ hm)]
      · have hnc : ¬f ∈ r :: rs := by
          intro hc
          rcases List.mem_cons.1 hc with h | h
          · exact hr h.symm
          · exact hm h
        rw [if_neg hm, if_neg hnc]

/-- A path is a key of the pre-hash dict exactly when it is one of the
snapshotted paths. -/
theorem dictMem_snapshot (fs : List (String × List Nat))
    (related : List String) (f : String) :
    dictMem (snapshot_files fs related) f = true ↔ f ∈ related := by
  unfold dictMem snapshot_files
  rw [find?_map_key]
  split_ifs with h <;> simp [h]

/-- Looking a snapshotted path up in the pre-hash dict yields its
pre-implementation hash. -/
theorem dictGetD_snapshot (fs : List (String × List Nat))
    (related : List String) (f : String) (hf : f ∈ related) :
    dictGetD (snapshot_files fs related) f "" = hash_file fs f := by
  unfold dictGetD snapshot_files
  rw [find?_map_key, if_pos hf]
  rfl

/-- C7: for every reported path, membership in `actually_changed` is
decided by the split the claim states — paths in the pre-hash set are
kept exactly when the post-implementation hash differs from the
pre-implementation hash, and paths outside it exactly when they exist on
disk.  In particular a reported pre-hashed file with unchanged content is
excluded. -/
theorem c7_actually_changed (fsB fsA : List (String × List Nat))
    (related reported : List String) (f : String) (hf : f ∈ reported) :
    f ∈ actually_changed fsB fsA related reported ↔
      (if f ∈ related then hash_file fsA f ≠ hash_file fsB f
       else fileExists fsA f = true) := by
  unfold actually_changed
  rw [mem_pySortedSet, List.mem_append]
  unfold diff_files
  rw [List.mem_filter, mem_pySortedSet, List.mem_append, List.mem_filter,
    List.mem_filter]
  by_cases hrel : f ∈ related
  · rw [if_pos hrel, dictGetD_snapshot fsB related f hrel]
    constructor
    · rintro (⟨_, hne⟩ | ⟨_, hmem⟩)
      · simpa using hne
      · rw [Bool.and_eq_true, Bool.not_eq_true'] at hmem
        rw [(dictMem_snapshot fsB related f).2 hrel] at hmem
        cases hmem.1
    · intro hne
      exact Or.inl ⟨Or.inl hrel, by simpa using hne⟩
  · rw [if_neg hrel]
    have hdm : dictMem (snapshot_files fsB related) f = false := by
      cases hv : dictMem (snapshot_files fsB related) f
      · rfl
      · exact absurd ((dictMem_snapshot fsB related f).1 hv) hrel
    constructor
    · rintro (⟨hc | ⟨_, hmem⟩, _⟩ | ⟨_, hmem⟩)
      · exact absurd hc hrel
      · rw [hdm] at hmem
        cases hmem
      · rw [Bool.and_eq_true] at hmem
        exact hmem.2
    · intro hex
      refine Or.inr ⟨hf, ?_⟩
      rw [Bool.and_eq_true, Bool.not_eq_true', hdm]
      exact ⟨rfl, hex⟩

/-- Witness for C7: a concrete run where a reported pre-hashed file kept
its bytes and is excluded, evaluated through the theorem. -/
theorem c7_witness :
    "a.txt" ∈ actually_changed
        [("a.txt", [104]), ("b.txt", [7])] [("a.txt", [104]), ("c.txt", [8])]
        ["a.txt", "b.txt"] ["a.txt", "c.txt"] ↔
      (if "a.txt" ∈ ["a.txt", "b.txt"] then
        hash_file [("a.txt", [104]), ("c.txt", [8])] "a.txt" ≠
          hash_file [("a.txt", [104]), ("b.txt", [7])] "a.txt"
       else fileExists [("a.txt", [104]), ("c.txt", [8])] "a.txt" = true) :=
  c7_actually_changed [("a.txt", [104]), ("b.txt", [7])]
    [("a.txt", [104]), ("c.txt", [8])] ["a.txt", "b.txt"] ["a.txt", "c.txt"]
    "a.txt" (by decide)

/-- Members of a batch contribute all their files to the batch union. -/
theorem mem_unionFiles (fileSets : List (List String)) (b : List Nat)
    (i : Nat) (hi : i ∈ b) (x : String) (hx : x ∈ fileSets.getD i []) :
    x ∈ unionFiles fileSets b := by
  unfold unionFiles
  exact List.mem_flatMap.2 ⟨i, hi, hx⟩

/-- An empty intersection means no shared member. -/
theorem listInter_nil_iff (a b : List String) :
    listInter a b = [] ↔ ∀ x ∈ a, x ∉ b := by
  unfold listInter
  rw [List.filter_eq_nil_iff]
  constructor
  · intro h x hx hm
    exact h x hx (by simpa using hm)
  · intro h x hx hc
    exact h x hx (by simpa using hc)

/-- What `tryPlace` can produce: every batch of the output is either an
input batch or one input batch with a non-empty, disjoint union extended
by the new group index. -/
theorem tryPlace_mem (fileSets : List (List String)) (files : List String)
    (gidx : Nat) (bs bs2 : List (List Nat))
    (h : tryPlace fileSets files gidx bs = some bs2) :
    ∀ b ∈ bs2, b ∈ bs ∨
      ∃ b0 ∈ bs, b = b0 ++ [gidx] ∧ ¬(unionFiles fileSets b0).isEmpty ∧
        (listInter files (unionFiles fileSets b0)).isEmpty := by
  induction bs generalizing bs2 with
  | nil => exact Option.noConfusion h
  | cons b0 rest ih =>
    unfold tryPlace at h
    split_ifs at h with he hd
    · cases hrec : tryPlace fileSets files gidx rest with
      | none => rw [hrec] at h; exact Option.noConfusion h
      | some r =>
        rw [hrec, Option.map_some'] at h
        have hb2 := Option.some_inj.1 h
        subst hb2
        intro b hb
        rcases List.mem_cons.1 hb with hb | hb
        · exact Or.inl (hb ▸ List.mem_cons_self ..)
        · rcases ih r hrec b hb with hb2 | ⟨c, hc, hrest⟩
          · exact Or.inl (List.mem_cons_of_mem _ hb2)
          · exact Or.inr ⟨c, List.mem_cons_of_mem _ hc, hrest⟩
    · have hb2 := Option.some_inj.1 h
      subst hb2
      intro b hb
      rcases List.mem_cons.1 hb with hb | hb
      · exact Or.inr ⟨b0, List.mem_cons_self .., hb, he, hd⟩
      · exact Or.inl (List.mem_cons_of_mem _ hb)
    · cases hrec : tryPlace fileSets files gidx rest with
      | none => rw [hrec] at h; exact Option.noConfusion h
      | some r =>
        rw [hrec, Option.map_some'] at h
        have hb2 := Option.some_inj.1 h
        subst hb2
        intro b hb
        rcases List.mem_cons.1 hb with hb | hb
        · exact Or.inl (hb ▸ List.mem_cons_self ..)
        · rcases ih r hrec b hb with hb2 | ⟨c, hc, hrest⟩
          · exact Or.inl (List.mem_cons_of_mem _ hb2)
          · exact Or.inr ⟨c, List.mem_cons_of_mem _ hc, hrest⟩

/-- Batches whose union is empty pass through `tryPlace` unchanged. -/
theorem tryPlace_keeps_empty (fileSets : List (List String))
    (files : List String) (gidx : Nat) (bs bs2 : List (List Nat))
    (h : tryPlace fileSets files gidx bs = some bs2) :
    ∀ b ∈ bs, (unionFiles fileSets b).isEmpty → b ∈ bs2 := by
  induction bs generalizing bs2 with
  | nil => exact Option.noConfusion h
  | cons b0 rest ih =>
    unfold tryPlace at h
    split_ifs at h with he hd
    · cases hrec : tryPlace fileSets files gidx rest with
      | none => rw [hrec] at h; exact Option.noConfusion h
      | some r =>
        rw [hrec, Option.map_some'] at h
        have hb2 := Option.some_inj.1 h
        subst hb2
        intro b hb hbe
        rcases List.mem_cons.1 hb with hb | hb
        · exact hb ▸ List.mem_cons_self ..
        · exact List.mem_cons_of_mem _ (ih r hrec b hb hbe)
    · have hb2 := Option.some_inj.1 h
      subst hb2
      intro b hb hbe
      rcases List.mem_cons.1 hb with hb | hb
      · exact absurd (hb ▸ hbe) he
      · exact List.mem_cons_of_mem _ hb
    · cases hrec : tryPlace fileSets files gidx rest with
      | none => rw [hrec] at h; exact Option.noConfusion h
      | some r =>
        rw [hrec, Option.map_some'] at h
        have hb2 := Option.some_inj.1 h
        subst hb2
        intro b hb hbe
        rcases List.mem_cons.1 hb with hb | hb
        · exact hb ▸ List.mem_cons_self ..
        · exact List.mem_cons_of_mem _ (ih r hrec b hb hbe)

/-- A singleton batch over an empty file set has an empty union. -/
theorem unionFiles_singleton_empty (fileSets : List (List String)) (i : Nat)
    (hie : fileSets.getD i [] = []) :
    (unionFiles fileSets [i]).isEmpty = true := by
  unfold unionFiles
  rw [List.flatMap_cons, List.flatMap_nil, hie]
  rfl

/-- `placeGroup` preserves both batching invariants and keeps every
existing batch whose union is empty. -/
theorem placeGroup_spec (fileSets : List (List String))
    (batches : List (List Nat)) (gidx : Nat)
    (hPw : ∀ b ∈ batches, b.Pairwise (FilesDisjoint fileSets))
    (hIso : ∀ b ∈ batches, ∀ i ∈ b, fileSets.getD i [] = [] → b = [i]) :
    (∀ b ∈ placeGroup fileSets batches gidx,
        b.Pairwise (FilesDisjoint fileSets)) ∧
    (∀ b ∈ placeGroup fileSets batches gidx, ∀ i ∈ b,
        fileSets.getD i [] = [] → b = [i]) ∧
    (∀ b ∈ batches, (unionFiles fileSets b).isEmpty →
        b ∈ placeGroup fileSets batches gidx) ∧
    (fileSets.getD gidx [] = [] → [gidx] ∈ placeGroup fileSets batches gidx) := by
  unfold placeGroup
  split_ifs with he
  · refine ⟨?_, ?_, ?_, ?_⟩
    · intro b hb
      rcases List.mem_append.1 hb with hb | hb
      · exact hPw b hb
      · rw [List.mem_singleton.1 hb]
        exact List.pairwise_singleton ..
    · intro b hb i hi hie
      rcases List.mem_append.1 hb with hb | hb
      · exact hIso b hb i hi hie
      · rw [List.mem_singleton.1 hb] at hi ⊢
        rw [List.mem_singleton.1 hi]
    · intro b hb _
      exact List.mem_append_left _ hb
    · intro _
      exact List.mem_append_right _ (List.mem_singleton.2 rfl)
  · cases htp : tryPlace fileSets (fileSets.getD gidx []) gidx batches with
    | none =>
      refine ⟨?_, ?_, ?_, ?_⟩
      · intro b hb
        rcases List.mem_append.1 hb with hb | hb
        · exact hPw b hb
        · rw [List.mem_singleton.1 hb]
          exact List.pairwise_singleton ..
      · intro b hb i hi hie
        rcases List.mem_append.1 hb with hb | hb
        · exact hIso b hb i hi hie
        · rw [List.mem_singleton.1 hb] at hi ⊢
          rw [List.mem_singleton.1 hi]
      · intro b hb _
        exact List.mem_append_left _ hb
      · intro hie
        exact absurd (by rw [hie]; rfl) he
    | some bs =>
      refine ⟨?_, ?_, ?_, ?_⟩
      · intro b hb
        rcases tryPlace_mem fileSets (fileSets.getD gidx []) gidx batches bs
            htp b hb with hb2 | ⟨b0, hb0, hbeq, hbne, hbdis⟩
        · exact hPw b hb2
        · subst hbeq
          rw [List.pairwise_append]
          refine ⟨hPw b0 hb0, List.pairwise_singleton .., ?_⟩
          intro j hj k hk x hxj hxk
          rw [List.mem_singleton.1 hk] at hxk
          rw [List.isEmpty_iff] at hbdis
          exact (listInter_nil_iff _ _).1 hbdis x hxk
            (mem_unionFiles fileSets b0 j hj x hxj)
      · intro b hb i hi hie
        rcases tryPlace_mem fileSets (fileSets.getD gidx []) gidx batches bs
            htp b hb with hb2 | ⟨b0, hb0, hbeq, hbne, _⟩
        · exact hIso b hb2 i hi hie
        · subst hbeq
          rcases List.mem_append.1 hi with hi | hi
          · have hsing := hIso b0 hb0 i hi hie
            rw [hsing] at hbne
            exact absurd (unionFiles_singleton_empty fileSets i hie) hbne
          · rw [List.mem_singleton.1 hi] at hie
            exact absurd (by rw [hie]; rfl) he
      · exact tryPlace_keeps_empty fileSets (fileSets.getD gidx []) gidx
          batches bs htp
      · intro hie
        exact absurd (by rw [hie]; rfl) he

/-- Invariants of the whole batching fold. -/
theorem buildFold_spec (fileSets : List (List String)) :
    ∀ (idxs : List Nat) (batches : List (List Nat)),
      (∀ b ∈ batches, b.Pairwise (FilesDisjoint fileSets)) →
      (∀ b ∈ batches, ∀ i ∈ b, fileSets.getD i [] = [] → b = [i]) →
      (∀ b ∈ idxs.foldl (placeGroup fileSets) batches,
          b.Pairwise (FilesDisjoint fileSets)) ∧
      (∀ b ∈ idxs.foldl (placeGroup fileSets) batches, ∀ i ∈ b,
          fileSets.getD i [] = [] → b = [i]) ∧
      (∀ b ∈ batches, (unionFiles fileSets b).isEmpty →
          b ∈ idxs.foldl (placeGroup fileSets) batches) ∧
      (∀ i ∈ idxs, fileSets.getD i [] = [] →
          [i] ∈ idxs.foldl (placeGroup fileSets) batches) := by
  intro idxs
  induction idxs with
  | nil =>
    intro batches hPw hIso
    exact ⟨hPw, hIso, fun b hb _ => hb, by simp⟩
  | cons gidx rest ih =>
    intro batches hPw hIso
    obtain ⟨sPw, sIso, sKeep, sAdd⟩ := placeGroup_spec fileSets batches gidx hPw hIso
    obtain ⟨rPw, rIso, rKeep, rAdd⟩ := ih (placeGroup fileSets batches gidx) sPw sIso
    refine ⟨rPw, rIso, ?_, ?_⟩
    · intro b hb hbe
      exact rKeep b (sKeep b hb hbe) hbe
    · intro i hi hie
      rcases List.mem_cons.1 hi with hi | hi
      · subst hi
        exact rKeep [i] (sAdd hie) (unionFiles_singleton_empty fileSets i hie)
      · exact rAdd i hi hie

/-- C5: in every batch the coordinator builds, member groups have
pairwise disjoint file sets, and every group whose file set is empty is
isolated in its own singleton batch — so no two fix agents dispatched
concurrently within one batch share a file. -/
theorem c5_batch_safety (fileSets : List (List String)) :
    (∀ b ∈ build_batches fileSets, b.Pairwise (FilesDisjoint fileSets)) ∧
    (∀ i < fileSets.length, fileSets.getD i [] = [] →
        [i] ∈ build_batches fileSets) := by
  obtain ⟨hPw, _, _, hAdd⟩ := buildFold_spec fileSets
    (List.range fileSets.length) [] (by simp) (by simp)
  exact ⟨hPw, fun i hi hie => hAdd i (List.mem_range.2 hi) hie⟩

/-- Witness for C5 at a concrete plan: two overlapping groups, one
disjoint group, one empty group. -/
theorem c5_witness :
    [3] ∈ build_batches [["a"], ["a", "b"], ["c"], []] :=
  (c5_batch_safety [["a"], ["a", "b"], ["c"], []]).2 3 (by decide) (by decide)

/-- Elements surviving the normalization fold come from the accumulator
or the processed components. -/
theorem res_mem (b : List String) :
    ∀ (acc : List String) (x : String), x ∈ b.foldl resStep acc →
      x ∈ acc ∨ x ∈ b := by
  induction b with
  | nil =>
    intro acc x hx
    exact Or.inl hx
  | cons c cs ih =>
    intro acc x hx
    rw [List.foldl_cons] at hx
    rcases ih (resStep acc c) x hx with hx2 | hx2
    · unfold resStep at hx2
      split_ifs at hx2
      · exact Or.inl (List.dropLast_subset acc hx2)
      · rcases List.mem_append.1 hx2 with hx3 | hx3
        · exact Or.inl hx3
        · exact Or.inr (List.mem_cons.2 (Or.inl (List.mem_singleton.1 hx3)))
    · exact Or.inr (List.mem_cons_of_mem _ hx2)

/-- The normalization fold never leaves a `..` in its output. -/
theorem res_no_ddot (b : List String) :
    ∀ (acc : List String), (∀ x ∈ acc, x ≠ "..") →
      ∀ x ∈ b.foldl resStep acc, x ≠ ".." := by
  induction b with
  | nil => exact fun acc hacc => hacc
  | cons c cs ih =>
    intro acc hacc x hx
    rw [List.foldl_cons] at hx
    refine ih (resStep acc c) ?_ x hx
    intro y hy
    unfold resStep at hy
    split_ifs at hy with hc
    · exact hacc y (List.dropLast_subset acc hy)
    · rcases List.mem_append.1 hy with hy2 | hy2
      · exact hacc y hy2
      · rw [List.mem_singleton.1 hy2]
        exact hc

/-- Folding components free of `..` just appends them. -/
theorem res_app_clean (b : List String) :
    ∀ (acc : List String), (∀ x ∈ b, x ≠ "..") →
      b.foldl resStep acc = acc ++ b := by
  induction b with
  | nil => simp
  | cons c cs ih =>
    intro acc hb
    rw [List.foldl_cons]
    have hstep : resStep acc c = acc ++ [c] := by
      unfold resStep
      rw [if_neg (hb c (List.mem_cons_self ..))]
    rw [hstep, ih (acc ++ [c]) (fun x hx => hb x (List.mem_cons_of_mem _ hx))]
    simp

/-- A singleton-pattern prefix test reads the head character. -/
theorem isPrefixOf_single (s0 c : Char) (r : List Char) :
    [s0].isPrefixOf (c :: r) = (s0 == c) := by
  simp [List.isPrefixOf]

/-- The splitter is insensitive to any sufficient fuel. -/
theorem pySplitCh_fuel (sep : List Char) (hsep : sep ≠ []) :
    ∀ (fuel1 fuel2 : Nat) (acc rest : List Char),
      rest.length ≤ fuel1 → rest.length ≤ fuel2 →
      pySplitCh sep fuel1 acc rest = pySplitCh sep fuel2 acc rest := by
  intro fuel1
  induction fuel1 with
  | zero =>
    intro fuel2 acc rest h1 h2
    have : rest = [] := List.length_eq_zero.1 (Nat.le_zero.1 h1)
    subst this
    cases fuel2 <;> rfl
  | succ f1 ih =>
    intro fuel2 acc rest h1 h2
    cases rest with
    | nil => cases fuel2 <;> rfl
    | cons c r =>
      cases fuel2 with
      | zero => simp at h2
      | succ f2 =>
        have hsl : 1 ≤ sep.length := by
          cases sep with
          | nil => exact absurd rfl hsep
          | cons _ _ => simp
        have hlen : r.length ≤ f1 := by
          simp only [List.length_cons] at h1
          omega
        have hlen2 : r.length ≤ f2 := by
          simp only [List.length_cons] at h2
          omega
        unfold pySplitCh
        split_ifs with hp
        · congr 1
          apply ih
          · simp only [List.length_drop, List.length_cons]
            omega
          · simp only [List.length_drop, List.length_cons]
            omega
        · exact ih f2 (c :: acc) r hlen hlen2

/-- Defining equation of the splitter at a cons cell. -/
theorem pySplitCh_cons_eq (sep : List Char) (fuel : Nat) (acc : List Char)
    (c : Char) (rest : List Char) :
    pySplitCh sep (fuel + 1) acc (c :: rest) =
      if sep.isPrefixOf (c :: rest) then
        acc.reverse :: pySplitCh sep fuel [] ((c :: rest).drop sep.length)
      else pySplitCh sep fuel (c :: acc) rest := rfl

/-- Pieces produced by splitting on a single character never contain
that character. -/
theorem pySplitCh_pieces (s0 : Char) :
    ∀ (fuel : Nat) (acc rest : List Char), rest.length ≤ fuel →
      (∀ x ∈ acc, x ≠ s0) →
      ∀ p ∈ pySplitCh [s0] fuel acc rest, ∀ c ∈ p, c ≠ s0 := by
  intro fuel
  induction fuel with
  | zero =>
    intro acc rest h hacc p hp c hc
    have hrest : rest = [] := List.length_eq_zero.1 (Nat.le_zero.1 h)
    subst hrest
    simp only [pySplitCh, List.mem_singleton] at hp
    rw [hp] at hc
    exact hacc c (List.mem_reverse.1 hc)
  | succ f ih =>
    intro acc rest h hacc p hp c hc
    cases rest with
    | nil =>
      simp only [pySplitCh, List.mem_singleton] at hp
      rw [hp] at hc
      exact hacc c (List.mem_reverse.1 hc)
    | cons ch r =>
      unfold pySplitCh at hp
      rw [isPrefixOf_single] at hp
      by_cases he : s0 = ch
      · rw [if_pos (by simp [he])] at hp
        rcases List.mem_cons.1 hp with hp | hp
        · rw [hp] at hc
          exact hacc c (List.mem_reverse.1 hc)
        · have hlen : ((ch :: r).drop [s0].length).length ≤ f := by
            simp only [List.length_cons] at h
            simp only [List.length_drop, List.length_cons,
              List.length_singleton]
            omega
          exact ih [] _ hlen (by simp) p hp c hc
      · rw [if_neg (by simp [he])] at hp
        have hlen : r.length ≤ f := by
          simp only [List.length_cons] at h
          omega
        refine ih (ch :: acc) r hlen ?_ p hp c hc
        intro x hx
        rcases List.mem_cons.1 hx with hx | hx
        · rw [hx]
          exact fun hcc => he hcc.symm
        · exact hacc x hx

/-- Splitting a character list free of the separator yields one piece. -/
theorem pySplitCh_no_sep (s0 : Char) :
    ∀ (fuel : Nat) (acc cs : List Char), (∀ c ∈ cs, c ≠ s0) →
      pySplitCh [s0] fuel acc cs = [acc.reverse ++ cs] := by
  intro fuel
  induction fuel with
  | zero =>
    intro acc cs _
    cases cs with
    | nil => simp [pySplitCh]
    | cons ch r => simp [pySplitCh]
  | succ f ih =>
    intro acc cs hcs
    cases cs with
    | nil => simp [pySplitCh]
    | cons ch r =>
      have hne : ¬((s0 == ch) = true) := by
        simp only [beq_iff_eq]
        exact fun hcc => hcs ch (List.mem_cons_self ..) hcc.symm
      rw [pySplitCh_cons_eq, isPrefixOf_single, if_neg hne]
      rw [ih (ch :: acc) r (fun x hx => hcs x (List.mem_cons_of_mem _ hx))]
      simp

/-- Splitting past a clean chunk emits it and continues after the
separator. -/
theorem pySplitCh_through (s0 : Char) :
    ∀ (x r acc : List Char) (fuel : Nat),
      (∀ c ∈ x, c ≠ s0) → (x ++ s0 :: r).length ≤ fuel →
      pySplitCh [s0] fuel acc (x ++ s0 :: r) =
        (acc.reverse ++ x) :: pySplitCh [s0] r.length [] r := by
  intro x
  induction x with
  | nil =>
    intro r acc fuel _ hlen
    cases fuel with
    | zero => simp at hlen
    | succ f =>
      rw [List.nil_append, List.append_nil]
      rw [pySplitCh_cons_eq, isPrefixOf_single, if_pos (by simp)]
      congr 1
      have hdrop : (s0 :: r).drop [s0].length = r := by simp
      rw [hdrop]
      apply pySplitCh_fuel [s0] (by simp)
      · simp only [List.length_cons, List.nil_append] at hlen
        omega
      · exact Nat.le_refl _
  | cons ch x2 ih =>
    intro r acc fuel hx hlen
    cases fuel with
    | zero => simp at hlen
    | succ f =>
      rw [List.cons_append]
      have hne : ¬((s0 == ch) = true) := by
        simp only [beq_iff_eq]
        exact fun hcc => hx ch (List.mem_cons_self ..) hcc.symm
      rw [pySplitCh_cons_eq, isPrefixOf_single, if_neg hne]
      rw [ih r (ch :: acc) f (fun c hc => hx c (List.mem_cons_of_mem _ hc))
        (by simp only [List.length_append, List.length_cons] at hlen ⊢; omega)]
      have hrev : (ch :: acc).reverse ++ x2 = acc.reverse ++ ch :: x2 := by
        simp
      rw [hrev]

/-- Splitting the slash-joined components recovers them when none
contains a slash. -/
theorem pySplit_intercalate (comps : List String) (hne : comps ≠ [])
    (hclean : ∀ p ∈ comps, ∀ c ∈ p.data, c ≠ Char.ofNat 47) :
    pySplit (pyIntercalate "/" comps) "/" = comps := by
  induction comps with
  | nil => exact absurd rfl hne
  | cons x rest ih =>
    cases rest with
    | nil =>
      show pySplit x "/" = [x]
      unfold pySplit
      rw [if_neg (by simp)]
      rw [pySplitCh_no_sep (Char.ofNat 47) _ [] x.data
        (hclean x (List.mem_cons_self ..))]
      simp
    | cons y rest2 =>
      have hstep : pyIntercalate "/" (x :: y :: rest2) =
          x ++ "/" ++ pyIntercalate "/" (y :: rest2) := rfl
      have hdata : (x ++ "/" ++ pyIntercalate "/" (y :: rest2)).data =
          x.data ++ Char.ofNat 47 :: (pyIntercalate "/" (y :: rest2)).data := by
        rw [String.data_append, String.data_append]
        rw [List.append_assoc]
        rfl
      unfold pySplit
      rw [if_neg (by simp)]
      rw [hstep, hdata]
      rw [pySplitCh_through (Char.ofNat 47) x.data
        (pyIntercalate "/" (y :: rest2)).data [] _
        (hclean x (List.mem_cons_self ..))
        (Nat.le_refl _)]
      rw [List.map_cons]
      have hx : String.mk ([].reverse ++ x.data) = x := rfl
      rw [hx]
      have htail := ih (by simp)
        (fun p hp => hclean p (List.mem_cons_of_mem _ hp))
      unfold pySplit at htail
      rw [if_neg (by simp)] at htail
      rw [htail]

/-- Every component `parsePath` produces is non-empty, not `.`, and free
of slashes. -/
theorem parsePath_clean (s : String) :
    ∀ p ∈ (parsePath s).comps,
      p ≠ "" ∧ p ≠ "." ∧ ∀ c ∈ p.data, c ≠ Char.ofNat 47 := by
  intro p hp
  unfold parsePath at hp
  have hpf := List.mem_filter.1 hp
  have hcond := hpf.2
  rw [Bool.and_eq_true, decide_eq_true_eq, decide_eq_true_eq] at hcond
  refine ⟨hcond.1, hcond.2, ?_⟩
  have hps := hpf.1
  unfold pySplit at hps
  rw [if_neg (by simp)] at hps
  obtain ⟨pc, hpc, hmk⟩ := List.mem_map.1 hps
  have hdata : p.data = pc := by rw [← hmk]
  intro c hc
  rw [hdata] at hc
  exact pySplitCh_pieces (Char.ofNat 47) s.data.length [] s.data
    (Nat.le_refl _) (by simp) pc hpc c hc

/-- The slash-joined components start with the first component's
characters. -/
theorem pyIntercalate_data_head (x : String) (rest : List String) :
    ∃ t, (pyIntercalate "/" (x :: rest)).data = x.data ++ t := by
  cases rest with
  | nil => exact ⟨[], by rw [List.append_nil]; rfl⟩
  | cons y rest2 =>
    refine ⟨Char.ofNat 47 :: (pyIntercalate "/" (y :: rest2)).data, ?_⟩
    show (x ++ "/" ++ pyIntercalate "/" (y :: rest2)).data = _
    rw [String.data_append, String.data_append, List.append_assoc]
    rfl

/-- Rendering relative components and re-parsing them is the identity on
clean component lists. -/
theorem parsePath_strOfRel (comps : List String)
    (hclean : ∀ p ∈ comps,
      p ≠ "" ∧ p ≠ "." ∧ ∀ c ∈ p.data, c ≠ Char.ofNat 47) :
    parsePath (strOfRel comps) = ⟨false, comps⟩ := by
  cases comps with
  | nil => decide
  | cons x rest =>
    have hsplit := pySplit_intercalate (x :: rest) (by simp)
      (fun p hp => (hclean p hp).2.2)
    have hxe : x.data ≠ [] := by
      intro hc
      refine (hclean x (List.mem_cons_self ..)).1 ?_
      cases x with
      | mk d =>
        simp only at hc
        rw [hc]
    unfold parsePath strOfRel
    rw [if_neg (by simp)]
    show PyPath.mk (pyStartsWith (pyIntercalate "/" (x :: rest)) "/")
      ((pySplit (pyIntercalate "/" (x :: rest)) "/").filter
        (fun c => c ≠ "" && c ≠ ".")) = ⟨false, x :: rest⟩
    rw [hsplit]
    have hfilter : (x :: rest).filter (fun c => c ≠ "" && c ≠ ".") =
        x :: rest := by
      rw [List.filter_eq_self]
      intro a ha
      rw [Bool.and_eq_true, decide_eq_true_eq, decide_eq_true_eq]
      exact ⟨(hclean a ha).1, (hclean a ha).2.1⟩
    rw [hfilter]
    obtain ⟨t, ht⟩ := pyIntercalate_data_head x rest
    have hstart : pyStartsWith (pyIntercalate "/" (x :: rest)) "/" = false := by
      unfold pyStartsWith
      rw [ht]
      cases hx : x.data with
      | nil => exact absurd hx hxe
      | cons c cx =>
        rw [List.cons_append]
        have : ("/" : String).data = [Char.ofNat 47] := rfl
        rw [this, isPrefixOf_single]
        have hcne : c ≠ Char.ofNat 47 :=
          (hclean x (List.mem_cons_self ..)).2.2 c
            (by rw [hx]; exact List.mem_cons_self ..)
        exact beq_eq_false_iff_ne.2 (fun hcc => hcne hcc.symm)
    rw [hstart]

/-- A refuted negated-Bool hypothesis yields the positive fact. -/
theorem not_bang_eq_true (b : Bool) (h : ¬((!b) = true)) : b = true := by
  cases b
  · exact absurd rfl h
  · rfl

/-- A remainder produced by `relative_to?` against the resolved codespace
renders and re-resolves to a path under the codespace root, whenever the
normalized target was built from parsed components. -/
theorem rel_safe (csStr l : String) (X rel : List String)
    (hX : ∀ x ∈ X, x ∈ (parsePath csStr).comps ∨ x ∈ (parsePath l).comps)
    (hrel : relative_to? (resolveComps X)
      (resolveComps (parsePath csStr).comps) = some rel) :
    (resolveComps (parsePath csStr).comps).isPrefixOf
      (resolveComps
        ((parsePath csStr).comps ++ (parsePath (strOfRel rel)).comps)) =
        true := by
  unfold relative_to? at hrel
  split_ifs at hrel with hpre
  · have hreldef := Option.some_inj.1 hrel
    have hsub : ∀ x ∈ rel, x ∈ resolveComps X := by
      intro x hx
      rw [← hreldef] at hx
      exact List.drop_subset _ _ hx
    have hmemX : ∀ x ∈ resolveComps X, x ∈ X := by
      intro x hx
      rcases res_mem X [] x hx with hc | hc
      · exact absurd hc (List.not_mem_nil x)
      · exact hc
    have hclean : ∀ p ∈ rel,
        p ≠ "" ∧ p ≠ "." ∧ ∀ c ∈ p.data, c ≠ Char.ofNat 47 := by
      intro p hp
      rcases hX p (hmemX p (hsub p hp)) with hc | hc
      · exact parsePath_clean csStr p hc
      · exact parsePath_clean l p hc
    have hddot : ∀ x ∈ rel, x ≠ ".." := fun x hx =>
      res_no_ddot X [] (by simp) x (hsub x hx)
    rw [parsePath_strOfRel rel hclean]
    have happ : resolveComps ((parsePath csStr).comps ++ rel) =
        resolveComps (parsePath csStr).comps ++ rel := by
      unfold resolveComps
      rw [List.foldl_append]
      exact res_app_clean rel _ hddot
    rw [happ]
    exact List.isPrefixOf_iff_prefix.2 (List.prefix_append _ _)

/-- Any path string appended by `collectStep` resolves back under the
resolved codespace root. -/
theorem collectStep_safe (csStr : String) (acc : List String)
    (line : String) (r : String)
    (hr : r ∈ collectStep (parsePath csStr).comps acc line) :
    r ∈ acc ∨
      (resolveComps (parsePath csStr).comps).isPrefixOf
        (resolveComps ((parsePath csStr).comps ++ (parsePath r).comps)) =
          true := by
  unfold collectStep at hr
  split_ifs at hr with hempty
  · exact Or.inl hr
  · have hr1 : r ∈
        (match (if (parsePath (pyStrip line)).absolute = true then
            relative_to? (resolveComps (parsePath (pyStrip line)).comps)
              (resolveComps (parsePath csStr).comps)
          else
            relative_to?
              (resolveComps
                ((parsePath csStr).comps ++ (parsePath (pyStrip line)).comps))
              (resolveComps (parsePath csStr).comps)) with
        | some rel =>
          if acc.contains (strOfRel rel) = true then acc
          else acc ++ [strOfRel rel]
        | none => acc) := hr
    cases hcase : (if (parsePath (pyStrip line)).absolute = true then
        relative_to? (resolveComps (parsePath (pyStrip line)).comps)
          (resolveComps (parsePath csStr).comps)
      else
        relative_to?
          (resolveComps
            ((parsePath csStr).comps ++ (parsePath (pyStrip line)).comps))
          (resolveComps (parsePath csStr).comps)) with
    | none =>
      rw [hcase] at hr1
      exact Or.inl hr1
    | some rel =>
      rw [hcase] at hr1
      have hr15 : r ∈ (if acc.contains (strOfRel rel) = true then acc
          else acc ++ [strOfRel rel]) := hr1
      split_ifs at hr15 with hcontains
      · exact Or.inl hr15
      · rcases List.mem_append.1 hr15 with hr2 | hr2
        · exact Or.inl hr2
        · rw [List.mem_singleton.1 hr2]
          refine Or.inr ?_
          by_cases hab : (parsePath (pyStrip line)).absolute = true
          · rw [if_pos hab] at hcase
            exact rel_safe csStr (pyStrip line)
              (parsePath (pyStrip line)).comps rel
              (fun x hx => Or.inr hx) hcase
          · rw [if_neg hab] at hcase
            exact rel_safe csStr (pyStrip line)
              ((parsePath csStr).comps ++ (parsePath (pyStrip line)).comps)
              rel (fun x hx => List.mem_append.1 hx) hcase

/-- C9: every path the modified-file collector returns, and both ends of
every snapshot copy, stay under their declared roots — unsafe report
lines and snapshot entries are skipped, never raised on. -/
theorem c9_path_safety (report csStr : String) (modifiedFiles : List String)
    (snapDirRaw : List String) (onDisk : List String → Bool) :
    (∀ r ∈ collect_modified_files report (parsePath csStr).comps,
      (resolveComps (parsePath csStr).comps).isPrefixOf
        (resolveComps ((parsePath csStr).comps ++ (parsePath r).comps)) =
          true) ∧
    (∀ pr ∈ snapshot_copies modifiedFiles (parsePath csStr).comps snapDirRaw
        onDisk,
      (resolveComps (parsePath csStr).comps).isPrefixOf pr.1 = true ∧
        (resolveComps snapDirRaw).isPrefixOf pr.2 = true) := by
  constructor
  · unfold collect_modified_files
    have hfold : ∀ (lines acc : List String),
        (∀ r ∈ acc,
          (resolveComps (parsePath csStr).comps).isPrefixOf
            (resolveComps
              ((parsePath csStr).comps ++ (parsePath r).comps)) = true) →
        ∀ r ∈ lines.foldl (collectStep (parsePath csStr).comps) acc,
          (resolveComps (parsePath csStr).comps).isPrefixOf
            (resolveComps
              ((parsePath csStr).comps ++ (parsePath r).comps)) = true := by
      intro lines
      induction lines with
      | nil => exact fun acc hacc => hacc
      | cons line rest ih =>
        intro acc hacc r hr
        rw [List.foldl_cons] at hr
        refine ih (collectStep (parsePath csStr).comps acc line) ?_ r hr
        intro r2 hr2
        rcases collectStep_safe csStr acc line r2 hr2 with hr3 | hr3
        · exact hacc r2 hr3
        · exact hr3
    exact hfold (pySplit (pyStrip report) "\n") [] (by simp)
  · unfold snapshot_copies
    have hfold : ∀ (files : List String)
        (acc : List (List String × List String)),
        (∀ pr ∈ acc,
          (resolveComps (parsePath csStr).comps).isPrefixOf pr.1 = true ∧
            (resolveComps snapDirRaw).isPrefixOf pr.2 = true) →
        ∀ pr ∈ files.foldl
            (snapStep (parsePath csStr).comps snapDirRaw onDisk) acc,
          (resolveComps (parsePath csStr).comps).isPrefixOf pr.1 = true ∧
            (resolveComps snapDirRaw).isPrefixOf pr.2 = true := by
      intro files
      induction files with
      | nil => exact fun acc hacc => hacc
      | cons fp rest ih =>
        intro acc hacc pr hpr
        rw [List.foldl_cons] at hpr
        refine ih _ ?_ pr hpr
        intro pr2 hpr2
        unfold snapStep at hpr2
        split_ifs at hpr2 with h1 h2 h3
        · exact hacc pr2 hpr2
        · exact hacc pr2 hpr2
        · exact hacc pr2 hpr2
        · rcases List.mem_append.1 hpr2 with hpr3 | hpr3
          · exact hacc pr2 hpr3
          · rw [List.mem_singleton.1 hpr3]
            exact ⟨not_bang_eq_true _ h2, not_bang_eq_true _ h3⟩
    exact hfold modifiedFiles [] (by simp)

/-- Witness for C9 at a concrete report containing a safe relative path,
a safe absolute path, and an escaping entry. -/
theorem c9_witness :
    ∀ r ∈ collect_modified_files "src/a.py\n/cs/pkg/b.py\n../evil.py"
        (parsePath "/cs/pkg").comps,
      (resolveComps (parsePath "/cs/pkg").comps).isPrefixOf
        (resolveComps
          ((parsePath "/cs/pkg").comps ++ (parsePath r).comps)) = true :=
  (c9_path_safety "src/a.py\n/cs/pkg/b.py\n../evil.py" "/cs/pkg" [] []
    (fun _ => true)).1

/-- C2 counterexample: with identical (empty) acknowledgment state — both
notes unacknowledged under the claim's definition — the legacy collector
classifies the note from a higher-numbered source to a lower-numbered
aligned target as an `unaddressed_note` problem, yet classifies the
mirror-image note as addressed: the classification is determined by
`int(SRC) > int(DST)`, and the note-ack signal is never consulted. -/
theorem c2_counterexample :
    collect_monolith
        [("01", ⟨"01", true, none, []⟩), ("02", ⟨"02", true, none, []⟩)]
        [("01", ⟨"01", "", "", "", ["a.go"], 0⟩),
         ("02", ⟨"02", "", "", "", ["b.go"], 0⟩)]
        [("from-02-to-01.md", "delta")] ≠ [] ∧
    collect_monolith
        [("01", ⟨"01", true, none, []⟩), ("02", ⟨"02", true, none, []⟩)]
        [("01", ⟨"01", "", "", "", ["a.go"], 0⟩),
         ("02", ⟨"02", "", "", "", ["b.go"], 0⟩)]
        [("from-01-to-02.md", "delta")] = [] ∧
    unackedNoteExists [("from-02-to-01.md", "delta")] [] = true ∧
    unackedNoteExists [("from-01-to-02.md", "delta")] [] = true := by
  decide

/-- C2 amended: for a single note `from-SRC-to-DST.md`, the refactored
collector flags it exactly when the target's latest result is aligned and
the target's note-ack signal does not acknowledge the recomputed note id
— a condition independent of the numeric order of SRC and DST — while
the legacy monolithic collector flags it exactly when the target is
aligned and `int(SRC) > int(DST)`, ignoring acknowledgments entirely. -/
theorem c2_amended (results : List (String × SectionResult))
    (secs : List (String × Section)) (name content src tgt : String)
    (acks : List (String × List AckEntry))
    (hparse : parseNoteName name = some (src, tgt)) :
    collect_pkg results secs [(name, content)] acks =
      misalignedProblems results secs ++
      (if ((alGet results tgt).map (·.aligned)).getD false = true
          ∧ ¬((read_note_acks acks tgt).getD []).any
              (fun a => a.note_id = some (noteId name content)) = true
       then [⟨tgt, "unaddressed_note", some (noteId name content),
         "Consequence note " ++ noteId name content ++ " from section " ++
           src ++ " has not been acknowledged by section " ++ tgt ++
           ". Note content:\n" ++ pyTake content 500,
         relatedOf secs tgt⟩]
       else []) ∧
    collect_monolith results secs [(name, content)] =
      misalignedProblems results secs ++
      (if ((alGet results tgt).map (·.aligned)).getD false = true
          ∧ digitsVal src > digitsVal tgt
       then [⟨tgt, "unaddressed_note", none,
         "Consequence note from section " ++ src ++
           " arrived after section " ++ tgt ++
           " was aligned. Note content:\n" ++ pyTake content 500,
         relatedOf secs tgt⟩]
       else []) := by
  have hsorted : sortedNotes [(name, content)] = [(name, content)] := rfl
  constructor
  · unfold collect_pkg
    rw [hsorted]
    congr 1
    rw [List.foldl_cons, List.foldl_nil, hparse]
    dsimp only
    cases halget : alGet results tgt with
    | none => simp [halget]
    | some tr =>
      cases htr : tr.aligned with
      | false => simp [halget, htr]
      | true =>
        cases hra : read_note_acks acks tgt with
        | none => simp [halget, htr, hra]
        | some al =>
          cases hack : al.any
              (fun a => a.note_id = some (noteId name content)) with
          | true => simp [halget, htr, hra, hack]
          | false => simp [halget, htr, hra, hack]
  · unfold collect_monolith
    rw [hsorted]
    congr 1
    rw [List.foldl_cons, List.foldl_nil, hparse]
    dsimp only
    cases halget : alGet results tgt with
    | none => simp [halget]
    | some tr =>
      cases htr : tr.aligned with
      | false => simp [halget, htr]
      | true =>
        by_cases hord : digitsVal src > digitsVal tgt
        · simp [halget, htr, hord]
        · simp [halget, htr, hord]

set_option maxHeartbeats 8000000 in
/-- C3: the note-id round trip breaks.  `post_section_completion`
(cross_section.py) computes the embedded id over the four-line
`note_content_draft`, but writes a file whose content additionally embeds
that id and further template text; the coordinator
(`_collect_outstanding_problems`) recomputes the id over the full file
content, so the recomputed id differs from the embedded id the target
acknowledges — an acknowledgment carrying the embedded id never matches.
Shown on a concrete note write: the id embedded in the written note is a
12-hex string, yet recomputing the id over the written content yields a
different id. -/
theorem c3_note_id_roundtrip_broken :
    noteId "from-01-to-02.md"
        (write_consequence_note "/p" "01" "02" "Summary." ""
          "changed event model" ["core.go"]).2 ≠
      (write_consequence_note "/p" "01" "02" "Summary." ""
        "changed event model" ["core.go"]).1 ∧
    ((write_consequence_note "/p" "01" "02" "Summary." ""
        "changed event model" ["core.go"]).1).length = 12 := by
  constructor
  · intro h
    have h1 : noteId "from-01-to-02.md"
        (write_consequence_note "/p" "01" "02" "Summary." ""
          "changed event model" ["core.go"]).2 = "962fc70ad0f4" := by decide
    have h2 : (write_consequence_note "/p" "01" "02" "Summary." ""
        "changed event model" ["core.go"]).1 = "1ef2e2c7a608" := by decide
    rw [h1, h2] at h
    exact absurd h (by decide)
  · decide

/-- Witness for C2 at a concrete note name. -/
theorem c2_witness :
    collect_monolith [] [] [("from-03-to-01.md", "body")] =
      misalignedProblems [] [] ++
      (if ((alGet ([] : List (String × SectionResult)) "01").map
            (·.aligned)).getD false = true
          ∧ digitsVal "03" > digitsVal "01"
       then [⟨"01", "unaddressed_note", none,
         "Consequence note from section 03 arrived after section 01" ++
           " was aligned. Note content:\nbody",
         relatedOf [] "01"⟩]
       else []) := by
  have h := (c2_amended [] [] "from-03-to-01.md" "body" "03" "01" []
    (by decide)).2
  simpa using h

/-- A string whose character data starts with a letter other than `c` is
not the string `complete`. -/
theorem ne_complete_of_head (s : String) (c : Char)
    (h : s.data.head? = some c) (hc : c ≠ 'c') : s ≠ "complete" := by
  intro he
  rw [he] at h
  have h2 : some 'c' = some c := h
  exact hc (Option.some.inj h2).symm

/-- A `fail:`-prefixed message is never `complete`. -/
theorem fail1_ne_complete (s : String) : ("fail:" ++ s) ≠ "complete" :=
  ne_complete_of_head _ 'f' rfl (by decide)

/-- A two-part `fail:`-prefixed message is never `complete`. -/
theorem fail2_ne_complete (s t : String) :
    ("fail:" ++ s ++ t) ≠ "complete" :=
  ne_complete_of_head _ 'f' rfl (by decide)

/-- A three-part `fail:`-prefixed message is never `complete`. -/
theorem fail3_ne_complete (s t u : String) :
    ("fail:" ++ s ++ t ++ u) ≠ "complete" :=
  ne_complete_of_head _ 'f' rfl (by decide)

/-- A coordination status message is never `complete`. -/
theorem statusMsg_ne_complete (s : String) :
    ("status:coordination:round-" ++ s) ≠ "complete" :=
  ne_complete_of_head _ 's' rfl (by decide)

/-- An escalation message is never `complete`. -/
theorem esc_ne_complete (a b : String) :
    ("escalation:coordination:round-" ++ a ++ ":stall_count=" ++ b) ≠
      "complete" :=
  ne_complete_of_head _ 'e' rfl (by decide)

/-- Membership in a conditional singleton forces equality. -/
theorem mem_if_singleton {c : Prop} [Decidable c] (x y : String)
    (h : y ∈ (if c then [x] else [])) : y = x := by
  split at h
  · exact List.mem_singleton.1 h
  · exact absurd h (List.not_mem_nil y)

/-- The exhausted tail emits only `fail:...` messages and never exits
as completed. -/
theorem exhaustedTail_spec (results : List (String × SectionResult)) :
    "complete" ∉ (exhaustedTail results).1 ∧
    (exhaustedTail results).2.2 ≠ ExitKind.completed := by
  unfold exhaustedTail
  dsimp only
  split
  · exact ⟨List.not_mem_nil _, by simp⟩
  · constructor
    · intro h
      rcases List.mem_map.1 h with ⟨kv, _, heq⟩
      exact fail3_ne_complete _ _ _ heq
    · simp

/-- The fix-execution loop never reports `complete`. -/
theorem execBatches_noComplete (env : RoundEnv) :
    ∀ (batches : List (List Nat)) (n : Nat) (groups : List (List Problem))
      (acc : List String),
      "complete" ∉ (execBatches env batches n groups acc).2.2 := by
  intro batches
  induction batches with
  | nil => intro n groups acc; simp [execBatches]
  | cons b rest ih =>
    intro n groups acc
    simp only [execBatches]
    split
    · simp
    · intro h
      exact absurd (List.mem_singleton.1 h) (by decide)
    · split
      · simp
      · exact ih _ _ _

/-- The per-section re-alignment loop never reports `complete`. -/
theorem realignFold_noComplete (env : RoundEnv)
    (secsByNum : List (String × Section)) :
    ∀ (l : List String) (results : List (String × SectionResult)),
      "complete" ∉ (realignFold env secsByNum l results).2.2.1 := by
  intro l
  induction l with
  | nil => intro results; simp [realignFold]
  | cons x rest ih =>
    intro results
    simp only [realignFold]
    split
    · exact ih _
    · split
      · exact ih _
      · split
        · simp
        · intro h
          exact absurd (List.mem_singleton.1 h).symm (fail2_ne_complete _ _)
        · split
          · simp
          · exact ih _
          · exact ih _

/-- Equation form of `execBatches_noComplete`. -/
theorem execBatches_noComplete_eq (env : RoundEnv) (b : List (List Nat))
    (n : Nat) (g : List (List Problem)) (a : List String)
    (o : Option (List String)) (ab : Bool) (m : List String)
    (heq : execBatches env b n g a = (o, ab, m)) : "complete" ∉ m := by
  have h2 := execBatches_noComplete env b n g a
  rw [heq] at h2
  exact h2

/-- Equation form of `realignFold_noComplete`. -/
theorem realignFold_noComplete_eq (env : RoundEnv)
    (secsByNum : List (String × Section)) (l : List String)
    (results : List (String × SectionResult))
    (o : Option (List (String × SectionResult))) (ab : Bool)
    (m : List String) (r2 : List (String × SectionResult))
    (heq : realignFold env secsByNum l results = (o, ab, m, r2)) :
    "complete" ∉ m := by
  have h2 := realignFold_noComplete env secsByNum l results
  rw [heq] at h2
  exact h2

/-- The Phase-2 sweep never reports `complete`. -/
theorem sweepFold_noComplete (env : Phase2Env) :
    ∀ (l : List (String × Section))
      (results : List (String × SectionResult)),
      "complete" ∉ (sweepFold env l results).2.2.1 := by
  intro l
  induction l with
  | nil => intro results; simp [sweepFold]
  | cons x rest ih =>
    intro results
    simp only [sweepFold]
    split
    · exact ih _
    · split
      · simp
      · intro h
        exact absurd (List.mem_singleton.1 h).symm (fail2_ne_complete _ _)
      · split
        · simp
        · exact ih _
        · exact ih _

/-- `run_global_coordination` never reports `complete` in parent mail. -/
theorem rgc_noComplete (sections : List Section)
    (secsByNum : List (String × Section))
    (noteFiles : List (String × String)) (env : RoundEnv)
    (results : List (String × SectionResult)) :
    "complete" ∉
      (run_global_coordination sections secsByNum noteFiles env
        results).2.2 := by
  unfold run_global_coordination
  dsimp only
  by_cases hempty :
      (collect_monolith results secsByNum noteFiles).isEmpty = true
  · rw [if_pos hempty]
    simp
  · rw [if_neg hempty]
    cases hctrl : env.ctrlPrePlan with
    | alignmentChanged => simp
    | abortMsg =>
      intro h
      exact absurd (List.mem_singleton.1 h) (by decide)
    | clean =>
      by_cases hplan : env.planSentinel = true
      · rw [if_pos hplan]
        simp
      · rw [if_neg hplan]
        dsimp only
        split
        · rename_i msgs heq
          exact execBatches_noComplete_eq env _ _ _ _ _ _ _ heq
        · simp
        · split
          · rename_i msgs results2 heq
            exact realignFold_noComplete_eq env secsByNum _ _ _ _ _ _ heq
          · simp
          · split
            · simp
            · simp

/-- When `run_global_coordination` reports all-done, the results it
returns either all carry `aligned=true` or collect to an empty problem
list. -/
theorem rgc_allDone_spec (sections : List Section)
    (secsByNum : List (String × Section))
    (noteFiles : List (String × String)) (env : RoundEnv)
    (results : List (String × SectionResult)) :
    (run_global_coordination sections secsByNum noteFiles env
        results).1 = RgcOut.allDone →
    (((run_global_coordination sections secsByNum noteFiles env
          results).2.1.filter (fun kv => !kv.2.aligned)).isEmpty = true ∨
      collect_monolith
        (run_global_coordination sections secsByNum noteFiles env
          results).2.1 secsByNum noteFiles = []) := by
  unfold run_global_coordination
  dsimp only
  by_cases hempty :
      (collect_monolith results secsByNum noteFiles).isEmpty = true
  · rw [if_pos hempty]
    intro _
    right
    exact List.isEmpty_iff.1 hempty
  · rw [if_neg hempty]
    cases hctrl : env.ctrlPrePlan with
    | alignmentChanged => intro h; exact absurd h (by simp)
    | abortMsg => intro h; exact absurd h (by simp)
    | clean =>
      by_cases hplan : env.planSentinel = true
      · rw [if_pos hplan]
        intro h
        exact absurd h (by simp)
      · rw [if_neg hplan]
        dsimp only
        split
        · intro h; exact absurd h (by simp)
        · intro h; exact absurd h (by simp)
        · split
          · intro h; exact absurd h (by simp)
          · intro h; exact absurd h (by simp)
          · split
            · rename_i hfil
              intro _
              left
              exact hfil
            · intro h; exact absurd h (by simp)

/-- The coordination loop sends `complete` exactly on its completed
exit, and a completed exit leaves every result aligned or nothing to
collect. -/
theorem coordLoop_spec (env : Phase2Env) (sections : List Section)
    (secsByNum : List (String × Section))
    (noteFiles : List (String × String)) :
    ∀ (fuel : Nat) (results : List (String × SectionResult))
      (prev stall roundNum : Nat),
      (("complete" ∈ (coordLoop env sections secsByNum noteFiles results
            prev stall roundNum fuel).1) ↔
        (coordLoop env sections secsByNum noteFiles results prev stall
            roundNum fuel).2.2 = ExitKind.completed) ∧
      ((coordLoop env sections secsByNum noteFiles results prev stall
            roundNum fuel).2.2 = ExitKind.completed →
        (((coordLoop env sections secsByNum noteFiles results prev stall
              roundNum fuel).2.1.filter
            (fun kv => !kv.2.aligned)).isEmpty = true ∨
          collect_monolith
            (coordLoop env sections secsByNum noteFiles results prev stall
              roundNum fuel).2.1 secsByNum noteFiles = [])) := by
  intro fuel
  induction fuel with
  | zero =>
    intro results prev stall roundNum
    refine ⟨⟨fun h => ?_, fun h => ?_⟩, fun h => ?_⟩
    · exact absurd h (exhaustedTail_spec results).1
    · exact absurd h (exhaustedTail_spec results).2
    · exact absurd h (exhaustedTail_spec results).2
  | succ fuel ih =>
    intro results prev stall roundNum
    simp only [coordLoop]
    split
    · simp
    · refine ⟨⟨fun h => ?_, fun h => ?_⟩, fun h => ?_⟩
      · exact absurd (List.mem_singleton.1 h) (by decide)
      · exact absurd h (by simp)
      · exact absurd h (by simp)
    · split
      · rename_i results2 msgs heq
        refine ⟨⟨fun h => ?_, fun h => ?_⟩, fun h => ?_⟩
        · rcases List.mem_cons.1 h with h | h
          · exact absurd h.symm (statusMsg_ne_complete _)
          · have h2 := rgc_noComplete sections secsByNum noteFiles
              (env.rounds (roundNum + 1)) results
            rw [heq] at h2
            exact absurd h h2
        · exact absurd h (by simp)
        · exact absurd h (by simp)
      · refine ⟨⟨fun h => ?_, fun h => ?_⟩, fun h => ?_⟩
        · exact absurd (List.mem_singleton.1 h).symm (statusMsg_ne_complete _)
        · exact absurd h (by simp)
        · exact absurd h (by simp)
      · rename_i results2 msgs heq
        split
        · refine ⟨⟨fun h => ?_, fun h => ?_⟩, fun h => ?_⟩
          · exact absurd (List.mem_singleton.1 h).symm
              (statusMsg_ne_complete _)
          · exact absurd h (by simp)
          · exact absurd h (by simp)
        · refine ⟨⟨fun h => ?_, fun h => ?_⟩, fun h => ?_⟩
          · rcases List.mem_cons.1 h with h | h
            · exact absurd h.symm (statusMsg_ne_complete _)
            · exact absurd (List.mem_singleton.1 h) (by decide)
          · exact absurd h (by simp)
          · exact absurd h (by simp)
        · constructor
          · simp
          · intro _
            have h2 := rgc_allDone_spec sections secsByNum noteFiles
              (env.rounds (roundNum + 1)) results
            rw [heq] at h2
            exact h2 rfl
      · rename_i results2 msgs heq
        split
        · split
          · refine ⟨⟨fun h => ?_, fun h => ?_⟩, fun h => ?_⟩
            · rcases List.mem_append.1 h with h | h
              · rcases List.mem_append.1 h with h | h
                · exact absurd (List.mem_singleton.1 h).symm
                    (statusMsg_ne_complete _)
                · exact absurd (mem_if_singleton _ _ h).symm
                    (esc_ne_complete _ _)
              · exact absurd h (exhaustedTail_spec results2).1
            · exact absurd h (exhaustedTail_spec results2).2
            · exact absurd h (exhaustedTail_spec results2).2
          · have ihx := ih results2
              ((results2.filter (fun kv => !kv.2.aligned)).length)
              (stall + 1) (roundNum + 1)
            refine ⟨⟨fun h => ?_, fun h => ?_⟩, fun h => ?_⟩
            · rcases List.mem_append.1 h with h | h
              · rcases List.mem_append.1 h with h | h
                · exact absurd (List.mem_singleton.1 h).symm
                    (statusMsg_ne_complete _)
                · exact absurd (mem_if_singleton _ _ h).symm
                    (esc_ne_complete _ _)
              · exact ihx.1.1 h
            · exact List.mem_append.2 (Or.inr (ihx.1.2 h))
            · exact ihx.2 h
        · have ihx := ih results2
            ((results2.filter (fun kv => !kv.2.aligned)).length)
            0 (roundNum + 1)
          refine ⟨⟨fun h => ?_, fun h => ?_⟩, fun h => ?_⟩
          · rcases List.mem_append.1 h with h | h
            · exact absurd (List.mem_singleton.1 h).symm
                (statusMsg_ne_complete _)
            · exact ihx.1.1 h
          · exact List.mem_append.2 (Or.inr (ihx.1.2 h))
          · exact ihx.2 h

/-- C1 counterexample: with both sections aligned after the sweep, the
consequence note `from-01-to-02.md` unacknowledged (no ack signal
exists at all), the Phase-2 tail sends `complete` — refuting "complete
is sent only when no unacknowledged consequence note exists". -/
theorem c1_counterexample :
    (phase2Tail cleanAlignedEnv c1Sections c1SecsByNum c1Notes
        c1Results0).1 = ["complete"] ∧
    (phase2Tail cleanAlignedEnv c1Sections c1SecsByNum c1Notes
        c1Results0).2.2 = ExitKind.completed ∧
    ((phase2Tail cleanAlignedEnv c1Sections c1SecsByNum c1Notes
        c1Results0).2.1.all (fun kv => kv.2.aligned)) = true ∧
    unackedNoteExists c1Notes [] = true := by
  decide

/-- C1 amended: the Phase-2 tail sends `complete` exactly on its
completed exit, and the completed exit guarantees only that every final
result is aligned or that the coordinator's problem collection is empty
— the unacknowledged-note condition of the claim is not part of the
gate. -/
theorem c1_amended (env : Phase2Env) (sections : List Section)
    (secsByNum : List (String × Section))
    (noteFiles : List (String × String))
    (results0 : List (String × SectionResult)) :
    (("complete" ∈
        (phase2Tail env sections secsByNum noteFiles results0).1) ↔
      (phase2Tail env sections secsByNum noteFiles results0).2.2 =
        ExitKind.completed) ∧
    ((phase2Tail env sections secsByNum noteFiles results0).2.2 =
        ExitKind.completed →
      (((phase2Tail env sections secsByNum noteFiles
            results0).2.1.filter
          (fun kv => !kv.2.aligned)).isEmpty = true ∨
        collect_monolith
          (phase2Tail env sections secsByNum noteFiles results0).2.1
          secsByNum noteFiles = [])) := by
  unfold phase2Tail
  split
  · rename_i msgs results heq
    refine ⟨⟨fun h => ?_, fun h => ?_⟩, fun h => ?_⟩
    · have h2 := sweepFold_noComplete env secsByNum results0
      rw [heq] at h2
      exact absurd h h2
    · exact absurd h (by simp)
    · exact absurd h (by simp)
  · refine ⟨⟨fun h => ?_, fun h => ?_⟩, fun h => ?_⟩
    · exact absurd h (List.not_mem_nil _)
    · exact absurd h (by simp)
    · exact absurd h (by simp)
  · dsimp only
    split
    · rename_i hfil
      split
      · refine ⟨⟨fun h => ?_, fun h => ?_⟩, fun h => ?_⟩
        · exact absurd h (List.not_mem_nil _)
        · exact absurd h (by simp)
        · exact absurd h (by simp)
      · refine ⟨⟨fun h => ?_, fun h => ?_⟩, fun h => ?_⟩
        · exact absurd (List.mem_singleton.1 h) (by decide)
        · exact absurd h (by simp)
        · exact absurd h (by simp)
      · exact ⟨⟨fun _ => rfl, fun _ => List.mem_singleton.2 rfl⟩,
          fun _ => Or.inl hfil⟩
    · exact coordLoop_spec env sections secsByNum noteFiles
        MAX_COORDINATION_ROUNDS _ _ 0 0

/-- Witness for C1 on the concrete clean run. -/
theorem c1_witness :
    ("complete" ∈
        (phase2Tail cleanAlignedEnv c1Sections c1SecsByNum c1Notes
          c1Results0).1) ↔
      (phase2Tail cleanAlignedEnv c1Sections c1SecsByNum c1Notes
          c1Results0).2.2 = ExitKind.completed :=
  (c1_amended cleanAlignedEnv c1Sections c1SecsByNum c1Notes c1Results0).1


end SectionLoop